import Mathlib

/-!
Verification of the CMX 3600 EDL adapter (otio-cmx3600-adapter) read path.

This file is a shallow embedding of the adapter's source modules
(`edl_statement.py`, `edl_parser.py`, `cmx_3600_reader.py`) in Lean 4,
together with theorems settling a list of claims about the code.

Conventions used throughout:
  * Python strings are Lean `String`s; character-level work happens on
    `List Char` via `String.data` / `List.asString`.
  * Python `None` and exceptions are modelled with `Option` / `Except`.
  * OpenTimelineIO's `opentime.RationalTime` is modelled with exact
    rationals (`value : ℚ` at `rate : ℚ`), which matches the library's
    documented exact arithmetic for the rational values appearing here.
-/

namespace Cmx3600

/-! ## Python string primitives -/

/-- Python's `\s` / `str.strip` whitespace set: space, tab, LF, CR, VT, FF. -/
def isPySpace (c : Char) : Bool :=
  c = ' ' || c = '\t' || c = '\n' || c = '\x0d' || c = '\x0b' || c = '\x0c'

/-- Python `str.strip()` on a character list. -/
def pyStripList (cs : List Char) : List Char :=
  ((cs.dropWhile isPySpace).reverse.dropWhile isPySpace).reverse

/-- Python `str.strip()`. -/
def pyStrip (s : String) : String :=
  (pyStripList s.data).asString

/-- Python `str.lstrip(":")`: remove all leading `':'` characters. -/
def pyLstripColon (s : String) : String :=
  (s.data.dropWhile (fun c => c = ':')).asString

/-- `edl_statement.py`, `EDLStatement.normalized_edit_number`:
`self.edit_number.lstrip("0")` (strip leading zero padding). -/
def lstripZeros (s : String) : String :=
  (s.data.dropWhile (fun c => c = '0')).asString

/-- Splits a character list at every character satisfying `p`, keeping empty
pieces (the behaviour of `re.split` on a single-character class). -/
def splitKeepEmpty (p : Char → Bool) : List Char → List (List Char)
  | [] => [[]]
  | c :: cs =>
    let rest := splitKeepEmpty p cs
    if p c then [] :: rest
    else
      match rest with
      | [] => [[c]]
      | piece :: pieces => (c :: piece) :: pieces

/-- `re.split("[:;]", s)` over strings. -/
def splitColons (s : String) : List String :=
  (splitKeepEmpty (fun c => c = ':' || c = ';') s.data).map List.asString

/-- Splitting on runs of whitespace and dropping empty fields: the effect of
`[f for f in re.split(r"\s+", s) if f]` (used by the statement lexer). -/
def splitFields (s : String) : List String :=
  ((splitKeepEmpty isPySpace s.data).map List.asString).filter (fun f => f ≠ "")

/-- Python `int(s)` for the strings this code feeds it: optional surrounding
whitespace, optional sign, one-or-more decimal digits. `none` models the
`ValueError` raised otherwise. -/
def pyInt (s : String) : Option Int :=
  let t := pyStripList s.data
  let (sign, digits) :=
    match t with
    | '-' :: rest => ((-1 : Int), rest)
    | '+' :: rest => ((1 : Int), rest)
    | rest => ((1 : Int), rest)
  if digits = [] then none
  else if digits.all (fun c => c.isDigit) then
    some (sign * (digits.foldl (fun acc c => 10 * acc + ((c.toNat : Int) - ('0'.toNat : Int))) (0 : Int)))
  else none

/-! ## `edl_statement.py`: the statement model -/

/-- `EDLStatement.normalized_edit_number` (with `edit_number` already known to
be non-`None`; the `None` case is handled at use sites). -/
def normalizedEditNumber (editNumber : String) : String :=
  lstripZeros editNumber

/-- The values of `NoteFormStatement.NoteFormIdentifiers`, in declaration
order (system directives, header statements, CMX note forms, OTIO
identifiers). -/
def noteFormIdentifierValues : List String :=
  [ "TITLE", "WAIT", "SKIP", "BELL", "RECORD", "NORECORD", "SLAVE", "NOSLAVE"
  , "AUDIO", "INCLUDE", "MEDIUM", "WIPES", "MOTION_CURVE"
  , "TIME_CODE_MODULUS"
  , "FCM", "SPLIT", "GPI", "M/S", "SWM", "M2", "%"
  , "FROM CLIP NAME", "TO CLIP NAME", "FROM CLIP", "FROM FILE", "SOURCE FILE"
  , "LOC", "ASC_SOP", "ASC_SAT", "* FREEZE FRAME", "OTIO REFERENCE" ]

/-- Lexicographic order on character lists by code point: Python's string
`<` (used here because `sorted` compares strings this way). -/
def charListLt : List Char → List Char → Bool
  | [], [] => false
  | [], _ :: _ => true
  | _ :: _, [] => false
  | a :: as, b :: bs =>
    if a < b then true else if b < a then false else charListLt as bs

/-- Python string `a <= b` by code points. -/
def pyStrLe (a b : String) : Bool :=
  ! charListLt b.data a.data

/-- `NoteFormStatement.identifiers()`: the identifier values sorted from
lexicographically greatest to least — `sorted(values, reverse=True)`. -/
def noteFormIdentifiersSorted : List String :=
  List.insertionSort (fun a b => pyStrLe b a) noteFormIdentifierValues

/-- Python `a.startswith(b)` i.e. `b` is a prefix of `a`. -/
def strStartsWith (s pre : String) : Bool :=
  pre.data.isPrefixOf s.data

/-- `NoteFormStatement.identifier`: first identifier (in reverse-sorted
order) that is a prefix of the statement text; otherwise guess from a
well-known form (text before the first `:`., else the remainder after the
first word, else empty). -/
def noteFormIdentifier (statementText : String) : String :=
  match noteFormIdentifiersSorted.find? (fun id => strStartsWith statementText id) with
  | some id => id
  | none =>
    if statementText.data.contains ':' then
      (statementText.data.takeWhile (fun c => c ≠ ':')).asString
    else
      -- `statement_text.split(maxsplit=1)` and take the last part:
      -- drop leading whitespace, then the text after the first whitespace run
      -- (or the single word itself); `[]` gives `""`.
      let t := statementText.data.dropWhile isPySpace
      if t = [] then ""
      else
        let firstWord := t.takeWhile (fun c => ¬ isPySpace c)
        let afterWord := t.dropWhile (fun c => ¬ isPySpace c)
        let rest := afterWord.dropWhile isPySpace
        if rest = [] then firstWord.asString else rest.asString

/-! ## Model of `opentimelineio.opentime`

The adapter depends on OpenTimelineIO's exact rational time arithmetic.
`RationalTime` is a (value, rate) pair; mixed-rate arithmetic rescales to
the larger rate, and `rescaled_to` multiplies the value by the rate ratio,
exactly as in OTIO's `rationalTime` implementation. -/

structure RationalTime where
  value : ℚ
  rate : ℚ
deriving DecidableEq, Repr

/-- `RationalTime.rescaled_to(new_rate)`. -/
def RationalTime.rescaledTo (t : RationalTime) (newRate : ℚ) : RationalTime :=
  ⟨t.value * (newRate / t.rate), newRate⟩

/-- `RationalTime.__add__`: the result carries the larger of the two rates. -/
def rtAdd (a b : RationalTime) : RationalTime :=
  if a.rate < b.rate then ⟨a.value * (b.rate / a.rate) + b.value, b.rate⟩
  else ⟨b.value * (a.rate / b.rate) + a.value, a.rate⟩

/-- `RationalTime.__sub__`: the result carries the larger of the two rates. -/
def rtSub (a b : RationalTime) : RationalTime :=
  if a.rate < b.rate then ⟨a.value * (b.rate / a.rate) - b.value, b.rate⟩
  else ⟨a.value - b.value * (a.rate / b.rate), a.rate⟩

/-- Value of a time in seconds; OTIO's comparisons and cross-rate equality
agree with comparing seconds for the positive rates used here. -/
def RationalTime.seconds (t : RationalTime) : ℚ := t.value / t.rate

structure TimeRange where
  start_time : RationalTime
  duration : RationalTime
deriving DecidableEq, Repr

/-- `opentime.duration_from_start_end_time`: the duration from `s` to `e`,
expressed at the rate of `s`. -/
def durationFromStartEndTime (s e : RationalTime) : RationalTime :=
  if s.rate = e.rate then ⟨e.value - s.value, s.rate⟩
  else ⟨e.value * (s.rate / e.rate) - s.value, s.rate⟩

/-- `opentime.range_from_start_end_time`. -/
def rangeFromStartEndTime (s e : RationalTime) : TimeRange :=
  ⟨s, durationFromStartEndTime s e⟩

/-- `TimeRange.end_time_exclusive` (start plus duration). -/
def TimeRange.endTimeExclusive (r : TimeRange) : RationalTime :=
  rtAdd r.duration r.start_time

/-! ## Model of `opentime.from_timecode` / `to_timecode`

A concrete model of OTIO's timecode parsing for the non-drop-frame
timecodes exercised here: four colon/semicolon-separated integer fields
`HH:MM:SS:FF`, invalid (`ValueError`, modelled as `none`) when the shape is
wrong or the frame field reaches the rate. Drop-frame rate adjustment is
outside the claims and not modelled. -/

/-- A non-empty all-digit field. -/
def pyNatDigits (s : String) : Option Nat :=
  if s.data = [] then none
  else if s.data.all (fun c => c.isDigit) then
    some (s.data.foldl (fun acc c => 10 * acc + (c.toNat - '0'.toNat)) 0)
  else none

/-- Model of `opentime.from_timecode(timecode, rate)`. -/
def otFromTimecode (timecode : String) (rate : ℚ) : Option RationalTime :=
  let parts := splitColons timecode
  match parts.mapM pyNatDigits with
  | some [h, m, s, f] =>
    if (f : ℚ) < rate then
      some ⟨((h * 3600 + m * 60 + s : ℕ) : ℚ) * rate + f, rate⟩
    else none
  | _ => none

/-- Two-digit zero padding for timecode rendering. -/
def pad2 (n : Nat) : String :=
  if n < 10 then "0" ++ toString n else toString n

/-- Model of `opentime.to_timecode(opentime.from_frames(n, rate), rate)`:
renders a frame count as `HH:MM:SS:FF` (integral rates; errors as `none`). -/
def otToTimecodeOfFrames (n : Int) (rate : ℚ) : Option String :=
  if n < 0 ∨ rate ≤ 0 ∨ rate.den ≠ 1 then none
  else
    let r := rate.num.toNat
    let total := n.toNat
    let f := total % r
    let secs := total / r
    some (pad2 (secs / 3600) ++ ":" ++ pad2 (secs / 60 % 60) ++ ":"
      ++ pad2 (secs % 60) ++ ":" ++ pad2 f)

/-! ## `cmx_3600_reader.py`: `from_timecode_approx` (the Timecode Engine) -/

inductive TCError
  /-- The `ValueError` raised by `opentime.from_timecode` for this timecode
  text at this rate (re-raised by the rate-inference fallback). -/
  | invalidTimecode (timecode : String) (rate : ℚ)
  /-- An uncaught error in the frame-number branch (`int(timecode)` or
  `opentime.to_timecode`). -/
  | badFrameNumber (text : String)
deriving DecidableEq, Repr

/-- The `known_rates` list of `from_timecode_approx`. -/
def knownRates : List Int := [1, 12, 24, 25, 30, 48, 50, 60]

/-- The rate-inference scan of `from_timecode_approx`: starts from
`frame + 1` and replaces it with the first known rate strictly greater than
the frame count. -/
def inferredRateOf (frame : Int) : Int :=
  match knownRates.find? (fun r => decide (frame < r)) with
  | some r => r
  | none => frame + 1

/-- The frame-number pre-step of `from_timecode_approx`: a text with no
`':'`/`';'` is interpreted as a frame count and re-rendered as timecode. -/
def doctorTimecode (timecode : String) (rate : ℚ) : Except TCError String :=
  if ¬ timecode.data.contains ':' ∧ ¬ timecode.data.contains ';' then
    match pyInt timecode with
    | none => .error (.badFrameNumber timecode)
    | some n =>
      match otToTimecodeOfFrames n rate with
      | none => .error (.badFrameNumber timecode)
      | some tc => .ok tc
  else .ok timecode

/-- `cmx_3600_reader.from_timecode_approx`. -/
def from_timecode_approx (timecode : String) (rate : ℚ)
    (ignoreInvalidTimecodeErrors : Bool) :
    Except TCError (RationalTime × Bool) :=
  match doctorTimecode timecode rate with
  | .error e => .error e
  | .ok tc =>
    match otFromTimecode tc rate with
    | some t => .ok (t, false)
    | none =>
      if ¬ ignoreInvalidTimecodeErrors then .error (.invalidTimecode tc rate)
      else
        -- Attempt to interpret the doctored timecode
        let tcParts := splitColons tc
        if tcParts.length ≠ 4 then .error (.invalidTimecode tc rate)
        else
          match tcParts.mapM pyInt with
          | none => .error (.invalidTimecode tc rate)
          | some ints =>
            let inferred := inferredRateOf ints.getLast!
            match otFromTimecode tc (inferred : ℚ) with
            | some t => .ok (t, true)
            | none => .error (.invalidTimecode tc rate)

/-- `cmx_3600_reader.from_timecode_range_approx`. -/
def from_timecode_range_approx (startTc endTc : String) (rate : ℚ)
    (ignore : Bool) : Except TCError (TimeRange × Bool) := do
  let (startTime, adjStart) ← from_timecode_approx startTc rate ignore
  let (endTime, adjEnd) ← from_timecode_approx endTc rate ignore
  .ok (rangeFromStartEndTime startTime endTime, adjStart || adjEnd)

/-! ## `cmx_3600_reader.py`: `resolve_timings_for_event_items` (Timing Resolver)

A clip handed to the resolver carries its original timecode metadata (the
four raw timecode strings stashed by `make_clip`) and its already-applied
time effects (M2 / freeze-frame, applied before timing resolution). -/

structure EventClip where
  sourceTcIn : String
  sourceTcOut : String
  recordTcIn : String
  recordTcOut : String
  /-- Number of already-applied `TimeEffect`s on the clip. -/
  timeEffectCount : Nat := 0
deriving DecidableEq, Repr

/-- The items of one event on one channel (clips and transitions). -/
inductive EventItem
  | clipItem (c : EventClip)
  | transitionItem
deriving DecidableEq, Repr

/-- The `[item for item in items if isinstance(item, otio.schema.Clip)]`
filter at the top of the resolver. -/
def eventClips (items : List EventItem) : List EventClip :=
  items.filterMap fun i =>
    match i with
    | .clipItem c => some c
    | .transitionItem => none

/-- A clip after timing resolution: the computed `source_range` plus the
metadata flags the resolver writes. -/
structure ResolvedClip where
  clip : EventClip
  sourceRange : TimeRange
  recordWasAdjusted : Bool
  sourceWasAdjusted : Bool
  hadTimecodeMismatch : Bool
deriving DecidableEq, Repr

inductive ResolveError
  /-- An uncaught timecode `ValueError` aborting timing resolution. -/
  | timecode (e : TCError)
  /-- The `clip_record_ranges[0]` lookup on an event with no clips. -/
  | emptyEvent
deriving DecidableEq, Repr

/-- Replace the last element of a list (`ranges[-1] = ...`). -/
def updateLast (f : α → α) : List α → List α
  | [] => []
  | [x] => [f x]
  | x :: xs => x :: updateLast f xs

/-- Was this statement's record range written as implicit
(`record_tc_in == record_tc_out`, literal text comparison)? -/
def implicitFlag (c : EventClip) : Bool :=
  c.recordTcIn == c.recordTcOut

/-- First loop of the resolver: establish resolved record time ranges for
all clips, stretching the previous range up to the current clip's record
start whenever the previous clip's range was implicit. Each list entry is
the resolved range paired with its `record_timecode_was_adjusted` flag. -/
def resolveRecordLoop (rate : ℚ) (ignore : Bool)
    (acc : List (TimeRange × Bool)) (prevImplicit : Bool) :
    List EventClip → Except TCError (List (TimeRange × Bool))
  | [] => .ok acc
  | c :: rest =>
    match from_timecode_range_approx c.recordTcIn c.recordTcOut rate ignore with
    | .error e => .error e
    | .ok (recordRange, recAdjusted) =>
      -- If the previous range is implicit, run it up to the start of this clip
      let acc' := if prevImplicit then
          updateLast
            (fun prev =>
              (rangeFromStartEndTime prev.1.start_time recordRange.start_time,
                prev.2))
            acc
        else acc
      resolveRecordLoop rate ignore (acc' ++ [(recordRange, recAdjusted)])
        (implicitFlag c) rest

/-- Second loop of the resolver: resolve each clip's source range, forcing
the duration to the (already resolved) record duration re-expressed at the
source start time's rate, and flag clips whose literal source duration
disagrees with the record duration. -/
def resolveSourceLoop (rate : ℚ) (ignore : Bool) :
    List ((TimeRange × Bool) × EventClip) → Except TCError (List ResolvedClip)
  | [] => .ok []
  | ((recordRange, recAdjusted), c) :: rest =>
    match from_timecode_range_approx c.sourceTcIn c.sourceTcOut rate ignore with
    | .error e => .error e
    | .ok (srcRange, srcAdjusted) =>
      let calculatedSrcDuration :=
        recordRange.duration.rescaledTo srcRange.start_time.rate
      let durationIsImplicit := implicitFlag c
      -- `record_range.duration == src_range.duration` (OTIO cross-rate
      -- equality, i.e. equality of seconds)
      let durationsMatch :=
        recordRange.duration.seconds = srcRange.duration.seconds
      let hadMismatch :=
        if ¬ durationsMatch ∧ ¬ durationIsImplicit then
          c.timeEffectCount = 0
        else False
      match resolveSourceLoop rate ignore rest with
      | .error e => .error e
      | .ok others =>
        .ok ({ clip := c
             , sourceRange := ⟨srcRange.start_time, calculatedSrcDuration⟩
             , recordWasAdjusted := recAdjusted
             , sourceWasAdjusted := srcAdjusted
             , hadTimecodeMismatch := decide hadMismatch } :: others)

/-- `EDLReader.resolve_timings_for_event_items`: resolves record then source
timings for the event's clips and returns the resolved clips together with
the time range the event occupies (start of the first resolved record range,
duration the sum of all resolved record durations seeded at the EDL rate). -/
def resolve_timings_for_event_items (edlRate : ℚ) (ignore : Bool)
    (items : List EventItem) :
    Except ResolveError (List ResolvedClip × TimeRange) :=
  let clips := eventClips items
  match resolveRecordLoop edlRate ignore [] false clips with
  | .error e => .error (.timecode e)
  | .ok recordRanges =>
    match resolveSourceLoop edlRate ignore (recordRanges.zip clips) with
    | .error e => .error (.timecode e)
    | .ok resolved =>
      match recordRanges with
      | [] => .error .emptyEvent
      | r0 :: _ =>
        .ok (resolved,
          ⟨r0.1.start_time,
            recordRanges.foldl (fun acc r => rtAdd acc r.1.duration)
              ⟨0, edlRate⟩⟩)

/-- Specification-side restatement of the first resolver loop: parse all
record ranges independently. -/
def parseRecordAll (rate : ℚ) (ignore : Bool) :
    List EventClip → Except TCError (List (TimeRange × Bool))
  | [] => .ok []
  | c :: rest =>
    match from_timecode_range_approx c.recordTcIn c.recordTcOut rate ignore with
    | .error e => .error e
    | .ok p =>
      match parseRecordAll rate ignore rest with
      | .error e => .error e
      | .ok ps => .ok (p :: ps)

/-- Specification-side restatement of the stretch step: an implicit range
followed by another range is run up to the start of its successor. -/
def stretchSpec : List (TimeRange × Bool) → List Bool → List (TimeRange × Bool)
  | [], _ => []
  | [p], _ => [p]
  | p :: q :: ps, flags =>
    match flags with
    | [] => p :: q :: ps
    | imp :: flags' =>
      (if imp then (rangeFromStartEndTime p.1.start_time q.1.start_time, p.2)
       else p) :: stretchSpec (q :: ps) flags'

/-- `ranges are contiguous`: each range starts exactly where the previous
one ends (value arithmetic at a shared rate). -/
def contiguousRanges : List (TimeRange × Bool) → Bool
  | p :: q :: t =>
    (q.1.start_time.value == p.1.start_time.value + p.1.duration.value)
      && contiguousRanges (q :: t)
  | _ => true

/-- Concrete counterexample clips: two clips with non-contiguous record
ranges `[00:00:00:00, 00:00:10:00)` and `[00:00:20:00, 00:00:30:00)`. -/
def cexClipA : EventClip :=
  { sourceTcIn := "00:01:00:00", sourceTcOut := "00:01:10:00"
  , recordTcIn := "00:00:00:00", recordTcOut := "00:00:10:00" }

def cexClipB : EventClip :=
  { sourceTcIn := "00:02:00:00", sourceTcOut := "00:02:10:00"
  , recordTcIn := "00:00:20:00", recordTcOut := "00:00:30:00" }

/-- Witness clips: an implicit statement (record-in text equals record-out
text) followed by an explicit one. -/
def witClipA : EventClip :=
  { sourceTcIn := "00:00:10:00", sourceTcOut := "00:00:10:00"
  , recordTcIn := "00:00:02:00", recordTcOut := "00:00:02:00" }

def witClipB : EventClip :=
  { sourceTcIn := "00:00:20:00", sourceTcOut := "00:00:21:00"
  , recordTcIn := "00:00:03:00", recordTcOut := "00:00:04:00" }

/-- The resolver's output on `[witClipA, witClipB]` (used by witnesses). -/
def witResolved : List ResolvedClip :=
  [ { clip := witClipA
    , sourceRange := ⟨⟨240, 24⟩, ⟨24, 24⟩⟩
    , recordWasAdjusted := false
    , sourceWasAdjusted := false
    , hadTimecodeMismatch := false }
  , { clip := witClipB
    , sourceRange := ⟨⟨480, 24⟩, ⟨24, 24⟩⟩
    , recordWasAdjusted := false
    , sourceWasAdjusted := false
    , hadTimecodeMismatch := false } ]

def witUnionRange : TimeRange := ⟨⟨48, 24⟩, ⟨48, 24⟩⟩

/-! ## `edl_parser.py`: the statement lexer -/

/-- `VALID_EFFECT_TYPES` — the values of the `EffectType` enum. -/
def validEffectTypes : List String :=
  ["C", "R", "D", "W", "K", "KB", "KO", "M", "F", "Q", "N", "X"]

/-- The line-context fields shared by every statement
(`element_context` in `statements_from_lines`). -/
structure LineContext where
  lineNumber : Nat
  editNumber : Option String
  isEditNumberInferred : Bool
  isRecorded : Bool
  isVirtualEdit : Bool
deriving DecidableEq, Repr

/-- A note-form statement as produced by the lexer. -/
structure NoteStatement where
  ctx : LineContext
  statementText : String
  isComment : Bool
deriving DecidableEq, Repr

/-- A standard-form statement as produced by the lexer. -/
structure StandardStatement where
  ctx : LineContext
  sourceIdentification : String
  channels : String
  editType : String
  editParameter : Option String
  sourceEntry : String
  sourceExit : String
  syncEntry : String
  syncExit : String
deriving DecidableEq, Repr

inductive Statement
  | note (s : NoteStatement)
  | standard (s : StandardStatement)
deriving DecidableEq, Repr

inductive ParseError
  /-- The `EDLParseError` for a wrong field count, carrying the count, the
  line number and the statement line text (as interpolated in the message). -/
  | wrongFieldCount (count : Nat) (lineNumber : Nat) (statement : String)
  /-- The `IndexError` from popping a timecode field off an exhausted list. -/
  | popFromEmpty (lineNumber : Nat)
deriving DecidableEq, Repr

/-- Tail of `EDIT_NUMBER_RE` after the digits: optional `>` (virtual),
optional `>!` (recorded), then required whitespace, consumed greedily with
the regex engine's backtracking preference. Returns (virtual, recorded,
rest after the whitespace run). -/
def edMatchTail (rest : List Char) : Option (Bool × Bool × List Char) :=
  let finish : Bool → Bool → List Char → Option (Bool × Bool × List Char) :=
    fun v r l =>
      match l with
      | c :: l' => if isPySpace c then some (v, r, l'.dropWhile isPySpace) else none
      | [] => none
  let tryRec : Bool → List Char → Option (Bool × Bool × List Char) :=
    fun v l =>
      match l with
      | '>' :: '!' :: l' =>
        match finish v true l' with
        | some res => some res
        | none => finish v false l
      | _ => finish v false l
  match rest with
  | '>' :: l' =>
    match tryRec true l' with
    | some res => some res
    | none => tryRec false rest
  | _ => tryRec false rest

/-- `EDIT_NUMBER_RE.match`: leading digits, an optional ASCII letter, the
optional virtual/recorded markers, then required whitespace (all consumed).
Returns (edit number subfield, virtual, recorded, rest of the line). -/
def matchEditNumber (cs : List Char) : Option (String × Bool × Bool × List Char) :=
  let digits := cs.takeWhile (fun c => c.isDigit)
  let afterDigits := cs.dropWhile (fun c => c.isDigit)
  if digits = [] then none
  else
    let withLetter : Option (String × Bool × Bool × List Char) :=
      match afterDigits with
      | c :: l' =>
        if c.isAlpha then
          (edMatchTail l').map
            (fun vr => ((digits ++ [c]).asString, vr.1, vr.2.1, vr.2.2))
        else none
      | [] => none
    match withLetter with
    | some res => some res
    | none =>
      (edMatchTail afterDigits).map
        (fun vr => (digits.asString, vr.1, vr.2.1, vr.2.2))

/-- `NoteFormStatement.STATEMENT_RE` applied by
`_note_form_statement_from_line`: strip one leading `*` (the comment
marker), then leading whitespace, then trailing space characters (the
`(?<! )` look-behind). The regex always matches, so the
`is_supported=False` fallback in the source is unreachable. -/
def noteStatementFromLine (ctx : LineContext) (line : String) : NoteStatement :=
  let (isComment, rest) :=
    match line.data with
    | '*' :: t => (true, t)
    | t => (false, t)
  let rest2 := rest.dropWhile isPySpace
  { ctx := ctx
  , statementText := ((rest2.reverse.dropWhile (fun c => c = ' ')).reverse).asString
  , isComment := isComment }

/-- The standard-form consumption of `statements_from_lines` (lines
115–179 of `edl_parser.py`), applied to the whitespace-split fields of an
edit-numbered, non-comment line. -/
def statementFromFields (ctx : LineContext) (line : String)
    (fields : List String) : Except ParseError Statement :=
  if fields.length < 6 ∨ fields.length > 8 then
    .error (.wrongFieldCount fields.length ctx.lineNumber line)
  else
    match fields with
    | f0 :: f1 :: restFields =>
      -- i = 0: source_identification = pop(0); i = 1: channels candidate
      let (sourceIdentification, channels, consuming) :=
        if f1 ∈ validEffectTypes then
          -- the channel assignment mushed into a fixed-width reel name
          let reelWidth :=
            if f0.length > 32 then 32 else if f0.length > 16 then 16 else 8
          ((f0.data.take reelWidth).asString, (f0.data.drop reelWidth).asString,
            f1 :: restFields)
        else (f0, f1, restFields)
      -- i = 2: edit_type = pop(0)
      match consuming with
      | editType :: consuming2 =>
        -- consume rec_out, rec_in, src_out, src_in from the end of the line
        let n := consuming2.length
        if n < 4 then .error (.popFromEmpty ctx.lineNumber)
        else
          match consuming2.drop (n - 4) with
          | [srcIn, srcOut, recIn, recOut] =>
            let remaining := consuming2.take (n - 4)
            .ok (.standard
              { ctx := ctx
              , sourceIdentification := sourceIdentification
              , channels := channels
              , editType := editType
              , editParameter :=
                  match remaining.getLast? with
                  | some p => some p
                  | none => none
              , sourceEntry := srcIn
              , sourceExit := srcOut
              , syncEntry := recIn
              , syncExit := recOut })
          | _ => .error (.popFromEmpty ctx.lineNumber)
      | [] => .error (.popFromEmpty ctx.lineNumber)
    | _ => .error (.popFromEmpty ctx.lineNumber)

/-- The per-line loop of `statements_from_lines`, threading the last-seen
edit number and its flags across lines. -/
def statementsLoop (editNumber : Option String) (isVirtual isRecorded : Bool)
    (lineNumber : Nat) : List String → Except ParseError (List Statement)
  | [] => .ok []
  | rawLine :: rest =>
    let line := pyStrip rawLine
    if line = "" then
      statementsLoop editNumber isVirtual isRecorded (lineNumber + 1) rest
    else
      match matchEditNumber line.data with
      | some (en, v, r, consumingRest) =>
        let ctx : LineContext :=
          { lineNumber := lineNumber, editNumber := some en
          , isEditNumberInferred := false, isRecorded := r
          , isVirtualEdit := v }
        let consumingLine := consumingRest.asString
        if consumingLine.data.head? = some '*' then
          -- COMMENT_RE matched: yield a note-form statement
          match statementsLoop (some en) v r (lineNumber + 1) rest with
          | .error e => .error e
          | .ok stmts =>
            .ok (.note (noteStatementFromLine ctx consumingLine) :: stmts)
        else
          match statementFromFields ctx line (splitFields consumingLine) with
          | .error e => .error e
          | .ok stmt =>
            match statementsLoop (some en) v r (lineNumber + 1) rest with
            | .error e => .error e
            | .ok stmts => .ok (stmt :: stmts)
      | none =>
        let ctx : LineContext :=
          { lineNumber := lineNumber, editNumber := editNumber
          , isEditNumberInferred := true, isRecorded := isRecorded
          , isVirtualEdit := isVirtual }
        match statementsLoop editNumber isVirtual isRecorded (lineNumber + 1) rest with
        | .error e => .error e
        | .ok stmts => .ok (.note (noteStatementFromLine ctx line) :: stmts)

/-- `edl_parser.statements_from_lines`. -/
def statements_from_lines (lines : List String) :
    Except ParseError (List Statement) :=
  statementsLoop none false false 1 lines

/-! ## `edl_statement.py`: note identifier and data extraction -/

/-- `NoteFormStatement.statement_identifier`: the derived identifier when it
is a member of the `NoteFormIdentifiers` enum, else `None`. -/
def statementIdentifier (statementText : String) : Option String :=
  let id := noteFormIdentifier statementText
  if id ∈ noteFormIdentifierValues then some id else none

/-- The text after the first occurrence of `sep` (`text.split(sep, 1)[-1]`);
the whole text when `sep` does not occur. -/
def splitOnceAfterAux (sep : List Char) : List Char → Option (List Char)
  | [] => if sep = [] then some [] else none
  | c :: cs =>
    if sep.isPrefixOf (c :: cs) then some ((c :: cs).drop sep.length)
    else splitOnceAfterAux sep cs

/-- `NoteFormStatement.data`: the statement text after its identifier, with
leading `':'` characters and surrounding whitespace removed. -/
def noteData (statementText : String) : String :=
  let identifier := noteFormIdentifier statementText
  let after :=
    match splitOnceAfterAux identifier.data statementText.data with
    | some rest => rest
    | none => statementText.data
  pyStrip ((after.dropWhile (fun c => c = ':')).asString)

/-! ## `cmx_3600_reader.py`: `EventComments` (the Note Classifier) -/

/-- `EventComments.HANDLED_NOTE_STATEMENTS` (identifier value → destination
key), in its significant order. -/
def handledNoteStatements : List (String × String) :=
  [ ("FROM CLIP NAME", "clip_name")
  , ("TO CLIP NAME", "dest_clip_name")
  , ("FROM CLIP", "media_reference")
  , ("FROM FILE", "media_reference")
  , ("LOC", "locators")
  , ("ASC_SOP", "asc_sop")
  , ("ASC_SAT", "asc_sat")
  , ("* FREEZE FRAME", "freeze_frame")
  , ("OTIO REFERENCE", "media_reference") ]

/-- One step of `ASC_SOP_REGEX` = `([+-]*\d+\.\d+)`: the greedy match
anchored at the head of the character list, returning the match and the
rest. -/
def ascSopMatchAt (cs : List Char) : Option (List Char × List Char) :=
  let signs := cs.takeWhile (fun c => c = '+' || c = '-')
  let afterSigns := cs.dropWhile (fun c => c = '+' || c = '-')
  let d1 := afterSigns.takeWhile Char.isDigit
  let rest1 := afterSigns.dropWhile Char.isDigit
  if d1 = [] then none
  else
    match rest1 with
    | '.' :: rest2 =>
      let d2 := rest2.takeWhile Char.isDigit
      let rest3 := rest2.dropWhile Char.isDigit
      if d2 = [] then none
      else some (signs ++ d1 ++ ['.'] ++ d2, rest3)
    | _ => none

/-- `re.findall` with `ASC_SOP_REGEX`: left-to-right, non-overlapping
matches. The fuel argument (initialized to the text length, which bounds
the number of scanning steps) only makes the recursion structural. -/
def ascSopFindallGo : Nat → List Char → List String
  | 0, _ => []
  | _ + 1, [] => []
  | fuel + 1, c :: cs =>
    match ascSopMatchAt (c :: cs) with
    | some (m, rest) => m.asString :: ascSopFindallGo fuel rest
    | none => ascSopFindallGo fuel cs

def ascSopFindall (s : String) : List String :=
  ascSopFindallGo s.data.length s.data

/-- The slope/offset/power triple of a parsed ASC_SOP note. The numeric
values are kept as their source substrings (the claims concern which
matches land in which field, not float semantics). -/
structure AscSop where
  slope : List String
  offset : List String
  power : List String
deriving DecidableEq, Repr

inductive CommentError
  /-- `EDLParseError(f"Invalid ASC_SOP found: ...")`. -/
  | invalidColorDecision (sopData : String)
  /-- `ValueError` from `float(...)`. -/
  | invalidFloat (s : String)
  /-- `ValueError` escaping the locator timecode parse. -/
  | timecode (e : TCError)
deriving DecidableEq, Repr

/-- `EventComments.parsed_asc_sop`: extract all signed decimal numbers;
with at least 9, the first three are the slope, the next three the offset
and the next three the power; fewer raise the invalid-color-decision
error. -/
def parsedAscSop (sopData : String) : Except CommentError AscSop :=
  let vals := ascSopFindall sopData
  if vals.length ≥ 9 then
    .ok { slope := vals.take 3
        , offset := (vals.drop 3).take 3
        , power := (vals.drop 6).take 3 }
  else .error (.invalidColorDecision sopData)

/-- Python `float(...)` validity for the simple decimal forms these notes
use (optional sign, digits with an optional fraction part). -/
def pyFloatValid (s : String) : Bool :=
  let t := pyStripList s.data
  let t := match t with
    | '+' :: r => r
    | '-' :: r => r
    | r => r
  match t.dropWhile Char.isDigit with
  | [] => t ≠ []
  | '.' :: frac =>
    (t.takeWhile Char.isDigit ≠ [] || frac ≠ []) && frac.all Char.isDigit
  | _ => false

/-- `EventComments.parsed_asc_sat` (value kept as source text). -/
def parsedAscSat (satData : String) : Except CommentError String :=
  if pyFloatValid satData then .ok satData
  else .error (.invalidFloat satData)

/-- The OTIO `MarkerColor` names (`hasattr(otio.schema.MarkerColor, ...)`). -/
def markerColors : List String :=
  ["PINK", "RED", "ORANGE", "YELLOW", "GREEN", "CYAN", "BLUE", "PURPLE",
   "MAGENTA", "BLACK", "WHITE"]

structure Marker where
  markedRange : TimeRange
  color : String
  name : String
  origColor : String
  origTimecode : String
  wasAdjusted : Bool
deriving DecidableEq, Repr

/-- Python `\w` (ASCII forms used here). -/
def isWordChar (c : Char) : Bool :=
  c.isAlphanum || c = '_'

/-- The locator pattern `(\d\d:\d\d:\d\d:\d\d)\s+(\w*)(\s+|$)(.*)` matched
at the start of the note data: returns (timecode, color word, name). -/
def matchLocator (data : List Char) : Option (String × String × String) :=
  match data with
  | a :: b :: ':' :: c :: d :: ':' :: e :: f :: ':' :: g :: h :: rest =>
    if [a, b, c, d, e, f, g, h].all Char.isDigit then
      match rest with
      | r :: _ =>
        if isPySpace r then
          let afterWs := rest.dropWhile isPySpace
          let w := afterWs.takeWhile isWordChar
          let afterW := afterWs.dropWhile isWordChar
          let tc := [a, b, ':', c, d, ':', e, f, ':', g, h].asString
          match afterW with
          | [] => some (tc, w.asString, "")
          | c2 :: _ =>
            if isPySpace c2 then
              some (tc, w.asString, (afterW.dropWhile isPySpace).asString)
            else none
        else none
      | [] => none
    else none
  | _ => none

/-- `EventComments.marker_for_locator_comment`: an unmatchable locator
yields no marker (silently); a matched one parses its timecode tolerantly
(errors propagate to the construction loop) and maps the color word onto a
known marker color, falling back to red. -/
def markerForLocatorComment (edlRate : ℚ) (data : String) :
    Except CommentError (Option Marker) :=
  match matchLocator data.data with
  | none => .ok none
  | some (tc, colorWord, nm) =>
    match from_timecode_approx tc edlRate true with
    | .error e => .error (.timecode e)
    | .ok (t, adjusted) =>
      .ok (some
        { markedRange := ⟨t, ⟨0, 1⟩⟩
        , color :=
            if colorWord.toUpper ∈ markerColors then colorWord.toUpper
            else "RED"
        , name := nm
        , origColor := colorWord
        , origTimecode := tc
        , wasAdjusted := adjusted })

inductive CommentValue
  | str (s : String)
  | sat (s : String)
  | sop (v : AscSop)
  | markers (ms : List Marker)
deriving DecidableEq, Repr

structure EventCommentsState where
  handled : List (String × CommentValue)
  unhandled : List String
  malformed : List NoteStatement
  edlRate : ℚ
deriving DecidableEq, Repr

/-- `handled.setdefault("locators", []).append(marker)`. -/
def appendLocator (handled : List (String × CommentValue)) (key : String)
    (m : Marker) : List (String × CommentValue) :=
  if (handled.lookup key).isSome then
    handled.map fun kv =>
      if kv.1 = key then
        (kv.1, match kv.2 with
               | .markers ms => .markers (ms ++ [m])
               | v => v)
      else kv
  else handled ++ [(key, .markers [m])]

/-- `EventComments.process_note_statement`. -/
def processNoteStatement (st : EventCommentsState) (statement : NoteStatement) :
    Except CommentError EventCommentsState :=
  match statementIdentifier statement.statementText with
  | none => .ok { st with unhandled := st.unhandled ++ [statement.statementText] }
  | some nfi =>
    match handledNoteStatements.lookup nfi with
    | none => .ok { st with unhandled := st.unhandled ++ [statement.statementText] }
    | some key =>
      if nfi = "LOC" then
        match markerForLocatorComment st.edlRate (noteData statement.statementText) with
        | .error e => .error e
        | .ok none => .ok st
        | .ok (some m) => .ok { st with handled := appendLocator st.handled key m }
      else if (st.handled.lookup key).isSome then
        -- Only the first source for any given destination key wins
        .ok { st with unhandled := st.unhandled ++ [statement.statementText] }
      else if key = "media_reference" then
        .ok { st with handled :=
          st.handled ++ [(key, .str (noteData statement.statementText))] }
      else if key = "asc_sat" then
        match parsedAscSat (noteData statement.statementText) with
        | .error e => .error e
        | .ok v => .ok { st with handled := st.handled ++ [(key, .sat v)] }
      else if key = "asc_sop" then
        match parsedAscSop (noteData statement.statementText) with
        | .error e => .error e
        | .ok v => .ok { st with handled := st.handled ++ [(key, .sop v)] }
      else
        .ok { st with handled :=
          st.handled ++ [(key, .str (noteData statement.statementText))] }

/-- The `EventComments.__init__` loop: a statement whose specialized
handling raises a value/parse error is demoted to the unhandled and
malformed lists and processing continues with the next comment. -/
def processComments (st : EventCommentsState) :
    List NoteStatement → EventCommentsState
  | [] => st
  | comment :: rest =>
    let st' :=
      match processNoteStatement st comment with
      | .ok s => s
      | .error _ =>
        { st with
          unhandled := st.unhandled ++ [comment.statementText],
          malformed := st.malformed ++ [comment] }
    processComments st' rest

/-- `EventComments(comments, edl_rate)`. -/
def eventComments (comments : List NoteStatement) (edlRate : ℚ) :
    EventCommentsState :=
  processComments
    { handled := [], unhandled := [], malformed := [], edlRate := edlRate }
    comments

/-! ## `cmx_3600_reader.py`: `load_from_statements` (Reconstruction Driver)

The driver's event-group processing (`process_event_statements`) turns a
group into clips and places them; for the grouping/TITLE claims it is
abstracted to recording the raw statement group on the current timeline —
the grouping logic, TITLE/FCM/SPLIT handling and timeline lifecycle are
embedded from the source. -/

structure TimelineModel where
  name : String
  events : List (List Statement)
deriving DecidableEq, Repr

/-- The driver state: `timelines` holds the finished timelines (every
timeline assigned to `current_timeline` is appended to the output list by
the property setter, so the full list is `finished ++ [current]`). -/
structure ReaderState where
  finished : List TimelineModel
  current : TimelineModel
deriving DecidableEq, Repr

/-- The `current_timeline` setter: append a fresh timeline and make it
current. -/
def newTimeline (st : ReaderState) : ReaderState :=
  { finished := st.finished ++ [st.current], current := { name := "", events := [] } }

def recordEvent (st : ReaderState) (group : List Statement) : ReaderState :=
  { st with current := { st.current with events := st.current.events ++ [group] } }

def statementContext : Statement → LineContext
  | .note n => n.ctx
  | .standard s => s.ctx

/-- `statement.normalized_edit_number` (None propagates). -/
def statementNormalized (s : Statement) : Option String :=
  (statementContext s).editNumber.map normalizedEditNumber

def statementIsInferred (s : Statement) : Bool :=
  (statementContext s).isEditNumberInferred

/-- The event-accumulation step shared by all non-absorbed statements. -/
def loadAccumStep (st : ReaderState) (eventStatements : List Statement)
    (currentEvent : Option String) (statement : Statement)
    (shouldSplit : Bool) :
    ReaderState × List Statement × Option String :=
  let editNumberChanged : Bool :=
    match currentEvent with
    | none => false
    | some ce =>
      (! statementIsInferred statement) && (statementNormalized statement != some ce)
  let shouldStart := shouldSplit || editNumberChanged
  if ! shouldStart then
    (st, eventStatements ++ [statement],
      if currentEvent = none ∧ ¬ statementIsInferred statement then
        statementNormalized statement
      else currentEvent)
  else
    let st' := if eventStatements ≠ [] then recordEvent st eventStatements else st
    (st', [statement],
      if ¬ statementIsInferred statement then statementNormalized statement
      else none)

/-- The statement loop of `load_from_statements`. -/
def loadLoop (st : ReaderState) (eventStatements : List Statement)
    (currentEvent : Option String) : List Statement → ReaderState
  | [] => if eventStatements ≠ [] then recordEvent st eventStatements else st
  | statement :: rest =>
    match statement with
    | .note n =>
      if ¬ n.isComment ∧ statementIdentifier n.statementText = some "FCM" then
        loadLoop st eventStatements currentEvent rest
      else if ¬ n.isComment ∧ statementIdentifier n.statementText = some "TITLE" then
        -- a second TITLE directive with a different name starts a new timeline
        let d := noteData n.statementText
        let st' :=
          if st.current.name ≠ "" ∧ st.current.name ≠ d then newTimeline st
          else st
        let st'' := { st' with current := { st'.current with name := d } }
        loadLoop st'' eventStatements currentEvent rest
      else
        let split := (! n.isComment) && (statementIdentifier n.statementText == some "SPLIT")
        let (st', es', ce') := loadAccumStep st eventStatements currentEvent statement split
        loadLoop st' es' ce' rest
    | .standard _ =>
      let (st', es', ce') := loadAccumStep st eventStatements currentEvent statement false
      loadLoop st' es' ce' rest

/-- `EDLReader.load_from_statements` at the grouping level (the initial
state has one unnamed current timeline, appended by `__init__` through the
`current_timeline` setter). -/
def load_from_statements (statements : List Statement) : ReaderState :=
  loadLoop { finished := [], current := { name := "", events := [] } }
    [] none statements

/-- All timelines produced (`self.timelines`). -/
def ReaderState.timelines (st : ReaderState) : List TimelineModel :=
  st.finished ++ [st.current]

/-! ## `cmx_3600_reader.py`: track placement (the Placement Engine)

Tracks model OTIO `Track` objects: sequential compositions whose items
(clips and gaps) occupy consecutive ranges starting at 0; transitions
occupy no layout duration. `children_in_range` intersects each child's
track-coordinate range with the search range (OTIO's epsilon tolerance is
irrelevant at the frame-scale separations used here). -/

inductive MediaRefKind
  | missing
  | external (targetUrl : String)
  | generator (kind : String)
  | imageSequence (base : String)
deriving DecidableEq, Repr

structure PlacedClip where
  name : String
  sourceRange : TimeRange
  /-- `metadata["cmx_3600"]["events"]`. -/
  events : List String
  /-- `metadata["cmx_3600"].get("reel")`. -/
  reel : Option String
  mediaRef : MediaRefKind
  /-- The `time_scalar`s of the clip's `LinearTimeWarp` effects, in order. -/
  timeScalars : List ℚ
deriving DecidableEq, Repr

inductive TrackItem
  | clip (c : PlacedClip)
  | gap (sourceRange : TimeRange)
  | transition (inOffset outOffset : RationalTime) (events : List String)
deriving DecidableEq, Repr

inductive TrackKind
  | video
  | audio
deriving DecidableEq, Repr

structure TrackModel where
  name : String
  kind : TrackKind
  items : List TrackItem
deriving DecidableEq, Repr

/-- OTIO strict comparison (`RationalTime.__lt__`), equivalent to comparing
seconds for the positive rates used here. -/
def rtLt (a b : RationalTime) : Bool :=
  a.seconds < b.seconds

/-- The layout duration an item contributes to its track (transitions
contribute none). -/
def itemLayoutDuration : TrackItem → Option RationalTime
  | .clip c => some c.sourceRange.duration
  | .gap r => some r.duration
  | .transition _ _ _ => none

/-- `Track.duration()`: the sum of the items' durations (seeded at OTIO's
default `RationalTime()`). -/
def trackDuration (t : TrackModel) : RationalTime :=
  t.items.foldl
    (fun acc it =>
      match itemLayoutDuration it with
      | some d => rtAdd acc d
      | none => acc)
    ⟨0, 1⟩

/-- Do the half-open second intervals `[s1, e1)` and `[s2, e2)` intersect? -/
def secondsOverlap (s1 e1 s2 e2 : ℚ) : Bool :=
  s1 < e2 && s2 < e1

/-- `Track.children_in_range(search_range)`: the children whose range in
the track's own coordinates (starting at 0) intersects the search range. -/
def childrenInRange (t : TrackModel) (searchRange : TimeRange) :
    List TrackItem :=
  let s2 := searchRange.start_time.seconds
  let e2 := (rtAdd searchRange.start_time searchRange.duration).seconds
  (t.items.foldl
    (fun acc it =>
      match itemLayoutDuration it with
      | some d =>
        let s1 := acc.1
        let e1 := s1 + d.seconds
        (e1, if secondsOverlap s1 e1 s2 e2 then acc.2 ++ [it] else acc.2)
      | none => acc)
    ((0 : ℚ), ([] : List TrackItem))).2

/-- `CHANNEL_MAP`. -/
def channelMap : List (String × List String) :=
  [ ("A", ["A1"])
  , ("AA", ["A1", "A2"])
  , ("B", ["V", "A1"])
  , ("A2/V", ["V", "A2"])
  , ("AA/V", ["V", "A1", "A2"]) ]

/-- `_guess_kind_for_track_name`. -/
def guessKindForTrackName (name : String) : TrackKind :=
  if strStartsWith name "V" then .video
  else if strStartsWith name "A" then .audio
  else .video

structure PlacementState where
  /-- The current timeline's tracks, in creation order
  (`tracks_by_name` is the lookup by name over the same objects). -/
  tracks : List TrackModel
  /-- `video_tracks` (names; creation through `tracks_for_channel` appends
  the new track both directly and again through `add_track`, so duplicates
  can occur, exactly as in the source). -/
  videoTracks : List String
  /-- `current_timeline_start_offset`. -/
  currentTimelineStartOffset : Option RationalTime
deriving DecidableEq, Repr

def lookupTrack (st : PlacementState) (name : String) : Option TrackModel :=
  st.tracks.find? (fun t => t.name = name)

def updateTrack (st : PlacementState) (t : TrackModel) : PlacementState :=
  { st with tracks := st.tracks.map (fun u => if u.name = t.name then t else u) }

inductive PlacementError
  /-- The inner `EDLParseError("Channel ... has existing content ...")`. -/
  | channelOccupied (channel : String)
  /-- The re-raised `EDLParseError("Overlapping record in value for
  event(s) ...")` carrying the sorted event numbers of the incoming
  items. -/
  | trackOverlap (events : List String)
  /-- `items[0]` on an exhausted item list. -/
  | indexError
deriving DecidableEq, Repr

/-- One track name's processing inside `tracks_for_channel`: fetch or
create the track, then resolve overlaps (video overlays; fatal for
non-video). Returns the updated state and the chosen destination track
name. -/
def trackForName (st : PlacementState) (channelCode : String)
    (timelineRange : TimeRange) (relativeStartTime : RationalTime)
    (trackName : String) : Except PlacementError (PlacementState × String) :=
  let (st, track) :=
    match lookupTrack st trackName with
    | some t => (st, t)
    | none =>
      let t : TrackModel :=
        { name := trackName, kind := guessKindForTrackName trackName
        , items := [] }
      -- the direct `video_tracks.append` before `add_track` (which appends
      -- again), exactly as in the source
      let st :=
        if t.kind = TrackKind.video then
          { st with videoTracks := st.videoTracks ++ [t.name] }
        else st
      let st :=
        { st with
          tracks := st.tracks ++ [t],
          videoTracks :=
            if t.kind = TrackKind.video then st.videoTracks ++ [t.name]
            else st.videoTracks }
      (st, t)
  -- Check for overlaps
  if rtLt relativeStartTime (trackDuration track) then
    let children := childrenInRange track timelineRange
    if children.length > 0 ∧ track.kind = TrackKind.video then
      -- look for (or create) another video track with open space
      match st.videoTracks.find? (fun vn =>
          vn != track.name &&
          (match lookupTrack st vn with
           | some ot => (childrenInRange ot timelineRange).isEmpty
           | none => false)) with
      | some vn => .ok (st, vn)
      | none =>
        let newName := "V" ++ toString (st.videoTracks.length + 1)
        let t : TrackModel := { name := newName, kind := .video, items := [] }
        let st :=
          { st with
            tracks := st.tracks ++ [t],
            videoTracks := st.videoTracks ++ [newName] }
        .ok (st, newName)
    else if children.length > 0 then
      -- don't resolve audio overwrites
      .error (.channelOccupied channelCode)
    else .ok (st, track.name)
  else .ok (st, track.name)

/-- `EDLReader.tracks_for_channel`. -/
def tracks_for_channel (st : PlacementState) (channelCode : String)
    (timelineRange : TimeRange) :
    Except PlacementError (PlacementState × List String) :=
  let trackNames :=
    match channelMap.lookup channelCode with
    | some names => names
    | none => [channelCode]
  let relativeStartTime :=
    rtSub timelineRange.start_time
      (match st.currentTimelineStartOffset with
       | some o => o
       | none => ⟨0, 1⟩)
  trackNames.foldlM
    (fun acc name => do
      let (st', out) := acc
      let (st'', chosen) ←
        trackForName st' channelCode timelineRange relativeStartTime name
      pure (st'', out ++ [chosen]))
    (st, ([] : List String))

/-- `_clips_are_continuous` (the `hasattr(clip_1, "target_url")` check in
the source tests the clip, which has no such attribute, and is therefore
always skipped). -/
def clipsAreContinuous (c1 c2 : PlacedClip) : Bool :=
  if c1.reel ≠ c2.reel then false
  else if (match c1.mediaRef, c2.mediaRef with
           | .missing, .missing => false
           | .external _, .external _ => false
           | .generator _, .generator _ => false
           | .imageSequence _, .imageSequence _ => false
           | _, _ => true) then false
  else if (TimeRange.endTimeExclusive c1.sourceRange).seconds ≠
      c2.sourceRange.start_time.seconds then false
  else c1.timeScalars.foldl (· * ·) 1 = c2.timeScalars.foldl (· * ·) 1

/-- `_should_merge_clip_to_track`. -/
def shouldMergeClipToTrack (item : TrackItem) (track : TrackModel) : Bool :=
  match item with
  | .clip clip =>
    match track.items.getLast? with
    | none => false
    | some existing =>
      match existing with
      | .clip existingClip =>
        if clip.sourceRange.duration.value = 0 then
          clipsAreContinuous existingClip clip
        else if track.items.length < 2 then false
        else
          match track.items[track.items.length - 2]? with
          | some (.transition _ _ _) => clipsAreContinuous existingClip clip
          | _ => false
      | _ => false
  | _ => false

/-- The merge applied when `_should_merge_clip_to_track` holds: extend the
existing clip by the incoming duration and union the event lists. -/
def mergeClipToTrack (track : TrackModel) (clip : PlacedClip) : TrackModel :=
  match track.items.getLast? with
  | some (.clip existing) =>
    let addedTime := clip.sourceRange.duration.rescaledTo
      existing.sourceRange.duration.rate
    let newEvents := clip.events.foldl
      (fun acc ev => if ev ∈ acc then acc else acc ++ [ev])
      existing.events
    let merged : PlacedClip :=
      { existing with
        sourceRange := ⟨existing.sourceRange.start_time,
          rtAdd existing.sourceRange.duration addedTime⟩,
        events := newEvents }
    { track with items := track.items.dropLast ++ [.clip merged] }
  | _ => track

def itemEvents : TrackItem → List String
  | .clip c => c.events
  | .transition _ _ evs => evs
  | .gap _ => []

/-- `sorted(set(...))` over the incoming items' event numbers. -/
def sortedEventNumbers (items : List TrackItem) : List String :=
  List.insertionSort (fun a b => pyStrLe a b) ((items.flatMap itemEvents).dedup)

/-- The per-destination-track placement step inside
`place_items_in_timeline` (the incoming item list is threaded because a
merge drops its head for the remaining destinations too). -/
def placeOnTrack (st : PlacementState) (timelineRange : TimeRange)
    (items : List TrackItem) (name : String) :
    Except PlacementError (PlacementState × List TrackItem) :=
  match lookupTrack st name with
  | none => .ok (st, items)  -- unreachable: tracks_for_channel created it
  | some track =>
    let relativeStartTime :=
      rtSub timelineRange.start_time
        (match st.currentTimelineStartOffset with
         | some o => o
         | none => ⟨0, 1⟩)
    if rtLt (trackDuration track) relativeStartTime then
      let gap : TrackItem := .gap
        ⟨⟨0, relativeStartTime.rate⟩,
          rtSub relativeStartTime (trackDuration track)⟩
      let track := { track with items := track.items ++ [gap] }
      .ok (updateTrack st { track with items := track.items ++ items }, items)
    else
      match items with
      | [] => .error .indexError
      | item0 :: restItems =>
        if shouldMergeClipToTrack item0 track then
          match item0 with
          | .clip clip =>
            let track := mergeClipToTrack track clip
            .ok (updateTrack st { track with items := track.items ++ restItems },
              restItems)
          | _ => .ok (st, items)  -- unreachable: merge only holds for clips
        else
          .ok (updateTrack st { track with items := track.items ++ items },
            items)

/-- `EDLReader.place_items_in_timeline`. -/
def place_items_in_timeline (st : PlacementState) (items : List TrackItem)
    (timelineRange : TimeRange) (channels : String) :
    Except PlacementError PlacementState :=
  -- the first event record timecode is the global start time
  let st :=
    if st.currentTimelineStartOffset = none then
      { st with currentTimelineStartOffset := some timelineRange.start_time }
    else st
  match tracks_for_channel st channels timelineRange with
  | .error _ => .error (.trackOverlap (sortedEventNumbers items))
  | .ok (st, targetTracks) =>
    (targetTracks.foldlM
      (fun (acc : PlacementState × List TrackItem) name =>
        placeOnTrack acc.1 timelineRange acc.2 name)
      (st, items)).map (fun acc => acc.1)

/-- Concrete clips for the placement scenarios (different reels, so no
clip merging applies). -/
def cexPlacedClip1 : PlacedClip :=
  { name := "001", sourceRange := ⟨⟨0, 24⟩, ⟨240, 24⟩⟩, events := ["001"]
  , reel := some "R1", mediaRef := .missing, timeScalars := [] }

def cexPlacedClip2 : PlacedClip :=
  { name := "002", sourceRange := ⟨⟨500, 24⟩, ⟨240, 24⟩⟩, events := ["002"]
  , reel := some "R2", mediaRef := .missing, timeScalars := [] }

def emptyPlacementState : PlacementState :=
  { tracks := [], videoTracks := [], currentTimelineStartOffset := none }

/-- Place the two scenario clips as two successive single-clip events on
channel `A` with the given record ranges. -/
def placeTwice (r1 r2 : TimeRange) : Except PlacementError PlacementState :=
  match place_items_in_timeline emptyPlacementState [.clip cexPlacedClip1]
      r1 "A" with
  | .ok st => place_items_in_timeline st [.clip cexPlacedClip2] r2 "A"
  | .error e => .error e

/-! ## Lemmas about the resolver loops -/

theorem updateLast_append_singleton (f : α → α) :
    ∀ (xs : List α) (x : α), updateLast f (xs ++ [x]) = xs ++ [f x] := by
  intro xs
  induction xs with
  | nil => intro x; rfl
  | cons y ys ih =>
    intro x
    cases ys with
    | nil => rfl
    | cons z zs =>
      show y :: updateLast f ((z :: zs) ++ [x]) = y :: ((z :: zs) ++ [f x])
      rw [ih x]

/-- The imperative record-range loop computes, after any accumulated prefix,
exactly the independently parsed ranges with the implicit-stretch applied. -/
theorem resolveRecordLoop_eq (rate : ℚ) (ignore : Bool) :
    ∀ (cs : List EventClip) (acc : List (TimeRange × Bool)) (prev : Bool),
    resolveRecordLoop rate ignore acc prev cs =
      match parseRecordAll rate ignore cs with
      | .error e => .error e
      | .ok ps =>
        .ok ((match ps with
              | [] => acc
              | p :: _ =>
                if prev then
                  updateLast (fun q =>
                    (rangeFromStartEndTime q.1.start_time p.1.start_time, q.2))
                    acc
                else acc)
          ++ stretchSpec ps (cs.map implicitFlag)) := by
  intro cs
  induction cs with
  | nil =>
    intro acc prev
    simp [resolveRecordLoop, parseRecordAll, stretchSpec]
  | cons c rest ih =>
    intro acc prev
    simp only [resolveRecordLoop, parseRecordAll]
    cases hparse :
        from_timecode_range_approx c.recordTcIn c.recordTcOut rate ignore with
    | error e => rfl
    | ok p =>
      obtain ⟨r, adj⟩ := p
      simp only []
      rw [ih]
      cases hrest : parseRecordAll rate ignore rest with
      | error e => rfl
      | ok ps =>
        simp only [List.map_cons]
        cases ps with
        | nil =>
          simp only [stretchSpec, List.append_nil]
        | cons q qs =>
          simp only [stretchSpec]
          cases himp : implicitFlag c with
          | false => simp [List.append_assoc]
          | true =>
            rw [updateLast_append_singleton]
            simp [List.append_assoc]

theorem parseRecordAll_ok_length (rate : ℚ) (ignore : Bool) :
    ∀ (cs : List EventClip) (ps : List (TimeRange × Bool)),
    parseRecordAll rate ignore cs = .ok ps → ps.length = cs.length := by
  intro cs
  induction cs with
  | nil =>
    intro ps h
    simp only [parseRecordAll] at h
    cases h
    rfl
  | cons c rest ih =>
    intro ps h
    simp only [parseRecordAll] at h
    cases hparse :
        from_timecode_range_approx c.recordTcIn c.recordTcOut rate ignore with
    | error e => rw [hparse] at h; cases h
    | ok p =>
      rw [hparse] at h
      cases hrest : parseRecordAll rate ignore rest with
      | error e => rw [hrest] at h; cases h
      | ok ps' =>
        rw [hrest] at h
        cases h
        simp [ih ps' hrest]

theorem parseRecordAll_ok_get (rate : ℚ) (ignore : Bool) :
    ∀ (cs : List EventClip) (ps : List (TimeRange × Bool)),
    parseRecordAll rate ignore cs = .ok ps →
    ∀ (i : ℕ) (c : EventClip), cs[i]? = some c →
    ∃ p, ps[i]? = some p ∧
      from_timecode_range_approx c.recordTcIn c.recordTcOut rate ignore = .ok p := by
  intro cs
  induction cs with
  | nil =>
    intro ps _ i c hc
    simp at hc
  | cons c0 rest ih =>
    intro ps h i c hc
    simp only [parseRecordAll] at h
    cases hparse :
        from_timecode_range_approx c0.recordTcIn c0.recordTcOut rate ignore with
    | error e => rw [hparse] at h; cases h
    | ok p0 =>
      rw [hparse] at h
      cases hrest : parseRecordAll rate ignore rest with
      | error e => rw [hrest] at h; cases h
      | ok ps' =>
        rw [hrest] at h
        cases h
        cases i with
        | zero =>
          simp only [List.getElem?_cons_zero] at hc ⊢
          cases hc
          exact ⟨p0, rfl, hparse⟩
        | succ j =>
          simp only [List.getElem?_cons_succ] at hc ⊢
          exact ih ps' hrest j c hc

theorem stretchSpec_get_implicit :
    ∀ (ps : List (TimeRange × Bool)) (flags : List Bool) (i : ℕ)
      (p q : TimeRange × Bool),
    ps[i]? = some p → ps[i + 1]? = some q → flags[i]? = some true →
    (stretchSpec ps flags)[i]? =
      some (rangeFromStartEndTime p.1.start_time q.1.start_time, p.2) := by
  intro ps
  induction ps with
  | nil => intro flags i p q hp; simp at hp
  | cons p0 rest ih =>
    intro flags i p q hp hq hf
    cases rest with
    | nil =>
      cases i with
      | zero => simp at hq
      | succ j => simp at hp
    | cons p1 rest' =>
      cases flags with
      | nil => simp at hf
      | cons f0 flags' =>
        cases i with
        | zero =>
          simp only [List.getElem?_cons_zero] at hp hq hf
          cases hp
          cases hf
          simp only [List.getElem?_cons_succ, List.getElem?_cons_zero] at hq
          cases hq
          simp [stretchSpec]
        | succ j =>
          simp only [List.getElem?_cons_succ] at hp hq hf
          simp only [stretchSpec, List.getElem?_cons_succ]
          exact ih flags' j p q hp (by simpa using hq) hf

theorem resolveSourceLoop_ok_get (rate : ℚ) (ignore : Bool) :
    ∀ (pairs : List ((TimeRange × Bool) × EventClip))
      (resolved : List ResolvedClip),
    resolveSourceLoop rate ignore pairs = .ok resolved →
    ∀ (i : ℕ) (rr : TimeRange) (ra : Bool) (c : EventClip),
      pairs[i]? = some ((rr, ra), c) →
    ∃ sr sa,
      from_timecode_range_approx c.sourceTcIn c.sourceTcOut rate ignore =
        .ok (sr, sa) ∧
      ∃ rc, resolved[i]? = some rc ∧
        rc.clip = c ∧
        rc.sourceRange =
          ⟨sr.start_time, rr.duration.rescaledTo sr.start_time.rate⟩ := by
  intro pairs
  induction pairs with
  | nil => intro resolved _ i rr ra c hc; simp at hc
  | cons pr rest ih =>
    intro resolved h i rr ra c hc
    obtain ⟨⟨rr0, ra0⟩, c0⟩ := pr
    simp only [resolveSourceLoop] at h
    cases hparse :
        from_timecode_range_approx c0.sourceTcIn c0.sourceTcOut rate ignore with
    | error e => rw [hparse] at h; cases h
    | ok sp =>
      obtain ⟨sr0, sa0⟩ := sp
      rw [hparse] at h
      cases hrest : resolveSourceLoop rate ignore rest with
      | error e => rw [hrest] at h; cases h
      | ok others =>
        rw [hrest] at h
        cases h
        cases i with
        | zero =>
          simp only [List.getElem?_cons_zero] at hc ⊢
          cases hc
          exact ⟨sr0, sa0, hparse, _, rfl, rfl, rfl⟩
        | succ j =>
          simp only [List.getElem?_cons_succ] at hc ⊢
          exact ih others hrest j rr ra c hc

/-! ## Lemmas about the identifier table and prefix matching -/

/-- A proper prefix is lexicographically smaller (character lists). -/
theorem charListLt_of_proper_prefix :
    ∀ {l₁ l₂ : List Char}, l₁ <+: l₂ → l₁ ≠ l₂ → charListLt l₁ l₂ = true := by
  intro l₁
  induction l₁ with
  | nil =>
    intro l₂ _ hne
    cases l₂ with
    | nil => exact absurd rfl hne
    | cons b bs => rfl
  | cons a as ih =>
    intro l₂ hpre hne
    cases l₂ with
    | nil =>
      exact absurd (List.eq_nil_of_prefix_nil hpre) (by simp)
    | cons b bs =>
      obtain ⟨t, ht⟩ := hpre
      have hab : a = b := by
        have := congrArg (fun l => l.head?) ht
        simpa using this
      subst hab
      have htail : as <+: bs := by
        refine ⟨t, ?_⟩
        have := congrArg (fun l => l.tail) ht
        simpa using this
      have hne' : as ≠ bs := fun h => hne (by rw [h])
      simp only [charListLt, lt_irrefl, if_false]
      exact ih htail hne'

/-- The sorted identifier table is descending in the Python string order. -/
theorem noteFormIdentifiersSorted_sorted :
    List.Sorted (fun a b : String => pyStrLe b a = true) noteFormIdentifiersSorted := by
  decide

/-- In a descending list, the first prefix-match of a text is the longest
prefix-match. -/
theorem find_first_is_longest (text : String) :
    ∀ (l : List String), List.Sorted (fun a b : String => pyStrLe b a = true) l →
    ∀ r, l.find? (fun id => strStartsWith text id) = some r →
    ∀ j ∈ l, strStartsWith text j = true → j.length ≤ r.length := by
  intro l
  induction l with
  | nil => intro _ r hr; simp at hr
  | cons x xs ih =>
    intro hsorted r hr j hj hpre
    rw [List.sorted_cons] at hsorted
    obtain ⟨hx, hxs⟩ := hsorted
    by_cases hpx : strStartsWith text x = true
    · have hrx : r = x := by
        rw [List.find?_cons_of_pos _ hpx] at hr
        exact (Option.some.injEq _ _ ▸ hr).symm
      subst hrx
      rcases List.mem_cons.mp hj with hjx | hjxs
      · subst hjx; exact le_rfl
      · -- j is later in the list, so j ≤ r in the string order;
        -- a longer prefix-match would contradict that.
        by_contra hlen
        push_neg at hlen
        have hle : pyStrLe j r = true := hx j hjxs
        have hcmp := List.prefix_or_prefix_of_prefix
          (List.isPrefixOf_iff_prefix.mp hpre)
          (List.isPrefixOf_iff_prefix.mp hpx)
        have e1 : j.length = j.data.length := rfl
        have e2 : r.length = r.data.length := rfl
        rcases hcmp with hjr | hrj
        · have := List.IsPrefix.length_le hjr
          omega
        · have hne : r.data ≠ j.data := by
            intro h
            have : r.data.length = j.data.length := by rw [h]
            omega
          have hlt := charListLt_of_proper_prefix hrj hne
          unfold pyStrLe at hle
          rw [hlt] at hle
          simp at hle
    · rw [List.find?_cons_of_neg _ hpx] at hr
      rcases List.mem_cons.mp hj with hjx | hjxs
      · subst hjx; exact absurd hpre hpx
      · exact ih hxs r hr j hjxs hpre

/-- In an ascending list, `find?` returns the least element satisfying the
predicate. -/
theorem find_first_true_min (p : Int → Bool) :
    ∀ (l : List Int), List.Sorted (fun a b : Int => a ≤ b) l →
    ∀ r, l.find? p = some r → ∀ x ∈ l, p x = true → r ≤ x := by
  intro l
  induction l with
  | nil => intro _ r hr; simp at hr
  | cons a as ih =>
    intro hsorted r hr x hx hpx
    rw [List.sorted_cons] at hsorted
    obtain ⟨ha, has⟩ := hsorted
    by_cases hpa : p a = true
    · rw [List.find?_cons_of_pos _ hpa] at hr
      have : r = a := (Option.some.injEq _ _ ▸ hr).symm
      subst this
      rcases List.mem_cons.mp hx with h | h
      · subst h; exact le_rfl
      · exact ha x h
    · rw [List.find?_cons_of_neg _ hpa] at hr
      rcases List.mem_cons.mp hx with h | h
      · subst h; exact absurd hpx hpa
      · exact ih has r hr x h hpx

/-- **C5**: the approximate timecode parser. If the nominal-rate parse of a
timecode text succeeds, it returns that value unadjusted (`was_adjusted`
is never `true` when the nominal parse succeeds); if the nominal parse
fails in tolerant mode, the text is re-split into 4 integer fields
(re-raising the original error on failure), the inferred rate is the first
canonical rate of `[1,12,24,25,30,48,50,60]` strictly greater than the
frame field — falling back to `frame+1` when none is greater — and the
parse is retried at the inferred rate, returning `(value, true)` on
success and re-raising the original error otherwise. -/
theorem from_timecode_approx_spec (timecode : String) (rate : ℚ)
    (hsep : timecode.data.contains ':' = true ∨ timecode.data.contains ';' = true) :
    (∀ ignore v, otFromTimecode timecode rate = some v →
        from_timecode_approx timecode rate ignore = .ok (v, false)) ∧
    (∀ ignore p, from_timecode_approx timecode rate ignore = .ok p → p.2 = true →
        otFromTimecode timecode rate = none) ∧
    (otFromTimecode timecode rate = none →
      ((splitColons timecode).length ≠ 4 ∨ (splitColons timecode).mapM pyInt = none →
          from_timecode_approx timecode rate true =
            .error (.invalidTimecode timecode rate)) ∧
      (∀ ints, (splitColons timecode).length = 4 →
          (splitColons timecode).mapM pyInt = some ints →
          ((∃ r ∈ knownRates, ints.getLast! < r) →
              inferredRateOf ints.getLast! ∈ knownRates ∧
              ints.getLast! < inferredRateOf ints.getLast! ∧
              ∀ r ∈ knownRates, ints.getLast! < r →
                inferredRateOf ints.getLast! ≤ r) ∧
          ((∀ r ∈ knownRates, ¬ ints.getLast! < r) →
              inferredRateOf ints.getLast! = ints.getLast! + 1) ∧
          (∀ v, otFromTimecode timecode ((inferredRateOf ints.getLast! : ℤ) : ℚ) = some v →
              from_timecode_approx timecode rate true = .ok (v, true)) ∧
          (otFromTimecode timecode ((inferredRateOf ints.getLast! : ℤ) : ℚ) = none →
              from_timecode_approx timecode rate true =
                .error (.invalidTimecode timecode rate)))) := by
  have hdoc : doctorTimecode timecode rate = .ok timecode := by
    unfold doctorTimecode
    rw [if_neg]
    intro ⟨h1, h2⟩
    rcases hsep with h | h
    · exact h1 h
    · exact h2 h
  refine ⟨?_, ?_, ?_⟩
  · intro ignore v hv
    simp only [from_timecode_approx, hdoc, hv]
  · intro ignore p hp htrue
    cases hnom : otFromTimecode timecode rate with
    | none => rfl
    | some t =>
      simp only [from_timecode_approx, hdoc, hnom] at hp
      injection hp with h
      rw [← h] at htrue
      simp at htrue
  · intro hnom
    constructor
    · intro hbad
      simp only [from_timecode_approx, hdoc, hnom, not_true, if_false]
      rcases hbad with h4 | hmap
      · rw [if_pos h4]
      · by_cases h4 : (splitColons timecode).length ≠ 4
        · rw [if_pos h4]
        · rw [if_neg h4, hmap]
    · intro ints h4 hmap
      refine ⟨?_, ?_, ?_, ?_⟩
      · intro hex
        cases hfind : knownRates.find? (fun r => decide (ints.getLast! < r)) with
        | none =>
          obtain ⟨r, hr, hlt⟩ := hex
          rw [List.find?_eq_none] at hfind
          exact absurd (by simpa using hlt) (by simpa using hfind r hr)
        | some r0 =>
          have hval : inferredRateOf ints.getLast! = r0 := by
            unfold inferredRateOf
            rw [hfind]
          refine ⟨?_, ?_, ?_⟩
          · rw [hval]; exact List.mem_of_find?_eq_some hfind
          · rw [hval]
            have := List.find?_some hfind
            simpa using this
          · intro r hr hlt
            rw [hval]
            exact find_first_true_min _ knownRates (by decide) r0 hfind r hr
              (by simpa using hlt)
      · intro hall
        unfold inferredRateOf
        rw [List.find?_eq_none.mpr (fun x hx => by simpa using hall x hx)]
      · intro v hv
        simp only [from_timecode_approx, hdoc, hnom, not_true, if_false]
        rw [if_neg (fun hc => hc h4)]
        simp only [hmap]
        rw [hv]
      · intro hv
        simp only [from_timecode_approx, hdoc, hnom, not_true, if_false]
        rw [if_neg (fun hc => hc h4)]
        simp only [hmap]
        rw [hv]

/-- Concrete run of the tolerant path: `00:00:01:30` fails at rate 24
(frame 30 ≥ 24), the inferred canonical rate is 48, and the retry succeeds
with the adjustment flag set. -/
theorem from_timecode_approx_spec_witness :
    from_timecode_approx "00:00:01:30" 24 true =
      .ok (⟨78, 48⟩, true) := by
  have h := from_timecode_approx_spec "00:00:01:30" 24 (Or.inl (by decide))
  have h2 := (h.2.2 (by with_unfolding_all decide)).2 [0, 0, 1, 30]
    (by decide) (by decide)
  exact h2.2.2.1 ⟨78, 48⟩ (by with_unfolding_all decide)

/-! ## Claim theorems: statement model -/

/-- **C10**: `normalized_edit_number` strips only leading `'0'` characters, so
every all-zero edit number normalizes to the empty string, and any two
all-zero edit numbers (of any textual lengths) normalize to the same event
number for event grouping. -/
theorem normalized_all_zero_edit_numbers_collide (e₁ e₂ : String)
    (h₁ : e₁.data.all (fun c => c = '0'))
    (h₂ : e₂.data.all (fun c => c = '0')) :
    normalizedEditNumber e₁ = "" ∧
      normalizedEditNumber e₁ = normalizedEditNumber e₂ := by
  have hz : ∀ (s : String), s.data.all (fun c => c = '0') →
      normalizedEditNumber s = "" := by
    intro s hs
    unfold normalizedEditNumber lstripZeros
    have : s.data.dropWhile (fun c => c = '0') = [] := by
      rw [List.dropWhile_eq_nil_iff]
      intro x hx
      have := List.all_eq_true.mp hs x hx
      simpa using this
    rw [this]
    rfl
  exact ⟨hz e₁ h₁, by rw [hz e₁ h₁, hz e₂ h₂]⟩

theorem normalized_all_zero_edit_numbers_collide_witness :
    ("0".data.all (fun c => c = '0')) ∧
    ("00000".data.all (fun c => c = '0')) ∧
    (normalizedEditNumber "0" = "" ∧
      normalizedEditNumber "0" = normalizedEditNumber "00000") :=
  ⟨by decide, by decide,
    normalized_all_zero_edit_numbers_collide "0" "00000" (by decide) (by decide)⟩

/-- **C8**: for every note text having at least one identifier-table element
as a prefix, `NoteFormStatement.identifier` returns a table element that is a
prefix and is the longest such element — despite the implementation scanning
the table in reverse-lexicographic order. In particular, a text starting
with `"FROM CLIP NAME"` resolves to `"FROM CLIP NAME"`, not `"FROM CLIP"`. -/
theorem identifier_is_longest_prefix_match (text i : String)
    (hi : i ∈ noteFormIdentifiersSorted) (hip : strStartsWith text i = true) :
    noteFormIdentifier text ∈ noteFormIdentifiersSorted ∧
    strStartsWith text (noteFormIdentifier text) = true ∧
    (∀ j ∈ noteFormIdentifiersSorted, strStartsWith text j = true →
      j.length ≤ (noteFormIdentifier text).length) ∧
    (strStartsWith text "FROM CLIP NAME" = true →
      noteFormIdentifier text = "FROM CLIP NAME") := by
  have hex : ∃ x ∈ noteFormIdentifiersSorted, strStartsWith text x = true :=
    ⟨i, hi, hip⟩
  obtain ⟨r, hfind⟩ : ∃ r,
      noteFormIdentifiersSorted.find? (fun id => strStartsWith text id) = some r := by
    rcases Option.eq_none_or_eq_some
        (noteFormIdentifiersSorted.find? (fun id => strStartsWith text id)) with hn | hs
    · rw [List.find?_eq_none] at hn
      obtain ⟨x, hx, hxp⟩ := hex
      exact absurd hxp (by simpa using hn x hx)
    · exact hs
  have hval : noteFormIdentifier text = r := by
    unfold noteFormIdentifier
    rw [hfind]
  have hmem : r ∈ noteFormIdentifiersSorted := List.mem_of_find?_eq_some hfind
  have hpre : strStartsWith text r = true := by
    have := List.find?_some hfind
    simpa using this
  have hlong : ∀ j ∈ noteFormIdentifiersSorted, strStartsWith text j = true →
      j.length ≤ r.length :=
    find_first_is_longest text _ noteFormIdentifiersSorted_sorted r hfind
  refine ⟨hval ▸ hmem, hval ▸ hpre, fun j hj hjp => hval ▸ hlong j hj hjp, ?_⟩
  intro hfcn
  rw [hval]
  have hfcnMem : ("FROM CLIP NAME" : String) ∈ noteFormIdentifiersSorted := by decide
  have hlen : ("FROM CLIP NAME" : String).length ≤ r.length :=
    hlong _ hfcnMem hfcn
  have hcmp := List.prefix_or_prefix_of_prefix
    (List.isPrefixOf_iff_prefix.mp hpre)
    (List.isPrefixOf_iff_prefix.mp hfcn)
  rcases hcmp with hrf | hfr
  · -- r is a prefix of "FROM CLIP NAME" but at least as long: they are equal
    have h1 := List.IsPrefix.length_le hrf
    have h2 : r.data.length = ("FROM CLIP NAME" : String).data.length := by
      have : ("FROM CLIP NAME" : String).length = ("FROM CLIP NAME" : String).data.length := rfl
      have hr : r.length = r.data.length := rfl
      omega
    have hdata := List.IsPrefix.eq_of_length hrf h2
    cases r
    exact congrArg String.mk hdata
  · -- "FROM CLIP NAME" is a prefix of r; no other table element extends it
    have honly : ∀ x ∈ noteFormIdentifiersSorted,
        ("FROM CLIP NAME" : String).data.isPrefixOf x.data = true →
        x = "FROM CLIP NAME" := by decide
    exact honly r hmem (List.isPrefixOf_iff_prefix.mpr hfr)

theorem identifier_is_longest_prefix_match_witness :
    (("FROM CLIP" : String) ∈ noteFormIdentifiersSorted) ∧
    (strStartsWith "FROM CLIP NAME: SHOT_A" "FROM CLIP" = true) ∧
    (noteFormIdentifier "FROM CLIP NAME: SHOT_A" ∈ noteFormIdentifiersSorted ∧
     strStartsWith "FROM CLIP NAME: SHOT_A" (noteFormIdentifier "FROM CLIP NAME: SHOT_A") = true ∧
     (∀ j ∈ noteFormIdentifiersSorted,
        strStartsWith "FROM CLIP NAME: SHOT_A" j = true →
        j.length ≤ (noteFormIdentifier "FROM CLIP NAME: SHOT_A").length) ∧
     (strStartsWith "FROM CLIP NAME: SHOT_A" "FROM CLIP NAME" = true →
        noteFormIdentifier "FROM CLIP NAME: SHOT_A" = "FROM CLIP NAME")) :=
  ⟨by decide, by decide,
    identifier_is_longest_prefix_match "FROM CLIP NAME: SHOT_A" "FROM CLIP"
      (by decide) (by decide)⟩

/-! ## Claim theorems: the Timing Resolver -/

/-- **C1**: when a clip's record-in timecode text equals its record-out text
and another statement follows it in the event, the resolver assigns that
clip the record range stretched forward to end exactly at the next
statement's resolved record start, and the clip's final source-range
duration is that stretched record duration rescaled to the rate of the
clip's parsed source start time (the literal source-out−source-in duration
is never used). -/
theorem implicit_record_range_stretched
    (edlRate : ℚ) (ignore : Bool) (items : List EventItem)
    (resolved : List ResolvedClip) (u : TimeRange)
    (hok : resolve_timings_for_event_items edlRate ignore items =
      .ok (resolved, u))
    (i : ℕ) (ci cnext : EventClip)
    (hci : (eventClips items)[i]? = some ci)
    (hcnext : (eventClips items)[i + 1]? = some cnext)
    (himp : ci.recordTcIn = ci.recordTcOut) :
    ∃ (ri rnext sri : TimeRange × Bool)
      (ranges : List (TimeRange × Bool)) (rc : ResolvedClip),
      from_timecode_range_approx ci.recordTcIn ci.recordTcOut edlRate ignore =
        .ok ri ∧
      from_timecode_range_approx cnext.recordTcIn cnext.recordTcOut edlRate
        ignore = .ok rnext ∧
      from_timecode_range_approx ci.sourceTcIn ci.sourceTcOut edlRate ignore =
        .ok sri ∧
      resolveRecordLoop edlRate ignore [] false (eventClips items) =
        .ok ranges ∧
      ranges[i]? =
        some (rangeFromStartEndTime ri.1.start_time rnext.1.start_time, ri.2) ∧
      resolved[i]? = some rc ∧
      rc.sourceRange.start_time = sri.1.start_time ∧
      rc.sourceRange.duration =
        (rangeFromStartEndTime ri.1.start_time
          rnext.1.start_time).duration.rescaledTo sri.1.start_time.rate := by
  have hchar := resolveRecordLoop_eq edlRate ignore (eventClips items) [] false
  cases hpar : parseRecordAll edlRate ignore (eventClips items) with
  | error e =>
    rw [hpar] at hchar
    simp only [resolve_timings_for_event_items, hchar] at hok
    simp at hok
  | ok ps =>
    rw [hpar] at hchar
    have hloop : resolveRecordLoop edlRate ignore [] false (eventClips items) =
        .ok (stretchSpec ps ((eventClips items).map implicitFlag)) := by
      rw [hchar]
      cases ps <;> simp
    obtain ⟨pi, hpi, hparsei⟩ :=
      parseRecordAll_ok_get edlRate ignore _ ps hpar i ci hci
    obtain ⟨pnext, hpnext, hparsenext⟩ :=
      parseRecordAll_ok_get edlRate ignore _ ps hpar (i + 1) cnext hcnext
    have hflag : ((eventClips items).map implicitFlag)[i]? = some true := by
      rw [List.getElem?_map, hci]
      simp [implicitFlag, himp]
    have hstretch := stretchSpec_get_implicit ps
      ((eventClips items).map implicitFlag) i pi pnext hpi hpnext hflag
    -- destructure the main function around the two loop results
    simp only [resolve_timings_for_event_items, hloop] at hok
    cases hsl : resolveSourceLoop edlRate ignore
        ((stretchSpec ps ((eventClips items).map implicitFlag)).zip
          (eventClips items)) with
    | error e => rw [hsl] at hok; cases hok
    | ok res =>
      rw [hsl] at hok
      cases hS : stretchSpec ps ((eventClips items).map implicitFlag) with
      | nil => rw [hS] at hstretch; simp at hstretch
      | cons r0 rs =>
        rw [hS] at hok
        have hres : res = resolved := by
          cases hok
          rfl
        have hzip : ((stretchSpec ps
            ((eventClips items).map implicitFlag)).zip (eventClips items))[i]? =
            some ((rangeFromStartEndTime pi.1.start_time pnext.1.start_time,
              pi.2), ci) :=
          List.getElem?_zip_eq_some.mpr ⟨hstretch, hci⟩
        obtain ⟨sr, sa, hsparse, rc, hrc, _hclip, hrange⟩ :=
          resolveSourceLoop_ok_get edlRate ignore _ res hsl i _ _ ci hzip
        refine ⟨pi, pnext, (sr, sa), _, rc, hparsei, hparsenext, hsparse,
          hloop, hstretch, hres ▸ hrc, ?_, ?_⟩
        · rw [hrange]
        · rw [hrange]

theorem implicit_record_range_stretched_witness :
    (resolve_timings_for_event_items 24 true
        [.clipItem witClipA, .clipItem witClipB] =
      .ok (witResolved, witUnionRange)) ∧
    ((eventClips [.clipItem witClipA, .clipItem witClipB])[0]? =
      some witClipA) ∧
    (witClipA.recordTcIn = witClipA.recordTcOut) ∧
    (∃ (ri rnext sri : TimeRange × Bool)
      (ranges : List (TimeRange × Bool)) (rc : ResolvedClip),
      from_timecode_range_approx witClipA.recordTcIn witClipA.recordTcOut
        24 true = .ok ri ∧
      from_timecode_range_approx witClipB.recordTcIn witClipB.recordTcOut
        24 true = .ok rnext ∧
      from_timecode_range_approx witClipA.sourceTcIn witClipA.sourceTcOut
        24 true = .ok sri ∧
      resolveRecordLoop 24 true [] false
        (eventClips [.clipItem witClipA, .clipItem witClipB]) = .ok ranges ∧
      ranges[0]? =
        some (rangeFromStartEndTime ri.1.start_time rnext.1.start_time, ri.2) ∧
      witResolved[0]? = some rc ∧
      rc.sourceRange.start_time = sri.1.start_time ∧
      rc.sourceRange.duration =
        (rangeFromStartEndTime ri.1.start_time
          rnext.1.start_time).duration.rescaledTo sri.1.start_time.rate) :=
  ⟨by with_unfolding_all rfl, by decide, by decide,
    implicit_record_range_stretched 24 true
      [.clipItem witClipA, .clipItem witClipB] witResolved witUnionRange
      (by with_unfolding_all rfl) 0 witClipA witClipB
      (by decide) (by decide) (by decide)⟩

/-- Folding OTIO addition over durations that all share a positive rate
sums the values at that rate. -/
theorem foldl_rtAdd_const_rate (R : ℚ) (hR : 0 < R) :
    ∀ (l : List (TimeRange × Bool)) (init : ℚ),
    (∀ r ∈ l, r.1.duration.rate = R) →
    l.foldl (fun acc r => rtAdd acc r.1.duration) ⟨init, R⟩ =
      ⟨init + (l.map (fun r => r.1.duration.value)).sum, R⟩ := by
  intro l
  induction l with
  | nil => intro init _; simp
  | cons r t ih =>
    intro init hrates
    have hr : r.1.duration.rate = R := hrates r (List.mem_cons_self r t)
    have hstep : rtAdd ⟨init, R⟩ r.1.duration =
        (⟨init + r.1.duration.value, R⟩ : RationalTime) := by
      unfold rtAdd
      rw [hr]
      rw [if_neg (lt_irrefl R)]
      have : R / R = 1 := div_self (ne_of_gt hR)
      simp [this]
      ring
    simp only [List.foldl_cons, hstep]
    rw [ih (init + r.1.duration.value)
      (fun x hx => hrates x (List.mem_cons_of_mem r hx))]
    simp only [List.map_cons, List.sum_cons]
    congr 1
    ring

/-- For contiguous ranges the sum of durations telescopes to the extent of
the spanned region. -/
theorem contiguous_sum_span :
    ∀ (l : List (TimeRange × Bool)) (r0 : TimeRange × Bool),
    contiguousRanges (r0 :: l) = true →
    ∃ rl, (r0 :: l).getLast? = some rl ∧
      ((r0 :: l).map (fun r => r.1.duration.value)).sum =
        rl.1.start_time.value + rl.1.duration.value - r0.1.start_time.value := by
  intro l
  induction l with
  | nil =>
    intro r0 _
    refine ⟨r0, rfl, ?_⟩
    simp
  | cons r1 t ih =>
    intro r0 hc
    simp only [contiguousRanges, Bool.and_eq_true, beq_iff_eq] at hc
    obtain ⟨heq, hrest⟩ := hc
    obtain ⟨rl, hlast, hsum⟩ := ih r1 hrest
    refine ⟨rl, ?_, ?_⟩
    · rw [List.getLast?_cons_cons]
      exact hlast
    · simp only [List.map_cons, List.sum_cons] at hsum ⊢
      rw [hsum, heq]
      ring

/-- **C3 amended**: the resolver's returned event range starts at the first
resolved record range's start and has duration the SUM of all resolved
record durations (seeded at the EDL rate) — which equals the extent of the
spanned region exactly when the resolved ranges are contiguous at the EDL
rate, not for arbitrary (gapped or overlapping) configurations. -/
theorem union_range_is_duration_sum
    (edlRate : ℚ) (ignore : Bool) (items : List EventItem)
    (resolved : List ResolvedClip) (u : TimeRange)
    (hok : resolve_timings_for_event_items edlRate ignore items =
      .ok (resolved, u)) :
    ∃ (r0 : TimeRange × Bool) (rs : List (TimeRange × Bool)),
      resolveRecordLoop edlRate ignore [] false (eventClips items) =
        .ok (r0 :: rs) ∧
      u = ⟨r0.1.start_time,
        (r0 :: rs).foldl (fun acc r => rtAdd acc r.1.duration) ⟨0, edlRate⟩⟩ ∧
      (0 < edlRate →
       (∀ r ∈ r0 :: rs, r.1.duration.rate = edlRate) →
       contiguousRanges (r0 :: rs) = true →
       ∃ rl, (r0 :: rs).getLast? = some rl ∧
         u.duration = ⟨rl.1.start_time.value + rl.1.duration.value
           - r0.1.start_time.value, edlRate⟩) := by
  cases hrec : resolveRecordLoop edlRate ignore [] false (eventClips items) with
  | error e =>
    simp only [resolve_timings_for_event_items, hrec] at hok
    simp at hok
  | ok recordRanges =>
    simp only [resolve_timings_for_event_items, hrec] at hok
    cases hsl : resolveSourceLoop edlRate ignore
        (recordRanges.zip (eventClips items)) with
    | error e => rw [hsl] at hok; cases hok
    | ok res =>
      rw [hsl] at hok
      cases recordRanges with
      | nil => cases hok
      | cons r0 rs =>
        have hu : u = ⟨r0.1.start_time,
            (r0 :: rs).foldl (fun acc r => rtAdd acc r.1.duration)
              ⟨0, edlRate⟩⟩ := by
          cases hok
          rfl
        refine ⟨r0, rs, rfl, hu, ?_⟩
        intro hrate hrates hcont
        obtain ⟨rl, hlast, hsum⟩ := contiguous_sum_span rs r0 hcont
        refine ⟨rl, hlast, ?_⟩
        rw [hu]
        show (r0 :: rs).foldl (fun acc r => rtAdd acc r.1.duration)
            ⟨0, edlRate⟩ = _
        rw [foldl_rtAdd_const_rate edlRate hrate (r0 :: rs) 0 hrates, hsum]
        congr 1
        ring

theorem union_range_is_duration_sum_witness :
    (resolve_timings_for_event_items 24 true
        [.clipItem witClipA, .clipItem witClipB] =
      .ok (witResolved, witUnionRange)) ∧
    (∃ (r0 : TimeRange × Bool) (rs : List (TimeRange × Bool)),
      resolveRecordLoop 24 true [] false
          (eventClips [.clipItem witClipA, .clipItem witClipB]) =
        .ok (r0 :: rs) ∧
      witUnionRange = ⟨r0.1.start_time,
        (r0 :: rs).foldl (fun acc r => rtAdd acc r.1.duration) ⟨0, 24⟩⟩ ∧
      ((0 : ℚ) < 24 →
       (∀ r ∈ r0 :: rs, r.1.duration.rate = 24) →
       contiguousRanges (r0 :: rs) = true →
       ∃ rl, (r0 :: rs).getLast? = some rl ∧
         witUnionRange.duration = ⟨rl.1.start_time.value +
           rl.1.duration.value - r0.1.start_time.value, 24⟩)) :=
  ⟨by with_unfolding_all rfl,
    union_range_is_duration_sum 24 true
      [.clipItem witClipA, .clipItem witClipB] witResolved witUnionRange
      (by with_unfolding_all rfl)⟩

/-- **C3 counterexample**: on two clips with the non-contiguous record
ranges `[0, 240)` and `[480, 720)` (at rate 24) the resolver returns the
range starting at 0 with duration 480 — the sum of the two durations — even
though the spanned region ends at 720 (so a union spanning range would have
duration 720, and would end at 720 rather than at 480). -/
theorem union_range_counterexample :
    (resolveRecordLoop 24 true [] false
        (eventClips [.clipItem cexClipA, .clipItem cexClipB]) =
      .ok [(⟨⟨0, 24⟩, ⟨240, 24⟩⟩, false), (⟨⟨480, 24⟩, ⟨240, 24⟩⟩, false)]) ∧
    (resolve_timings_for_event_items 24 true
        [.clipItem cexClipA, .clipItem cexClipB] =
      .ok ([ { clip := cexClipA
             , sourceRange := ⟨⟨1440, 24⟩, ⟨240, 24⟩⟩
             , recordWasAdjusted := false
             , sourceWasAdjusted := false
             , hadTimecodeMismatch := false }
           , { clip := cexClipB
             , sourceRange := ⟨⟨2880, 24⟩, ⟨240, 24⟩⟩
             , recordWasAdjusted := false
             , sourceWasAdjusted := false
             , hadTimecodeMismatch := false } ],
        ⟨⟨0, 24⟩, ⟨480, 24⟩⟩)) ∧
    ((TimeRange.endTimeExclusive ⟨⟨480, 24⟩, ⟨240, 24⟩⟩).value = 720) ∧
    ((TimeRange.endTimeExclusive ⟨⟨0, 24⟩, ⟨480, 24⟩⟩).value = 480) ∧
    ((480 : ℚ) ≠ 720) := by
  refine ⟨?_, ?_, ?_, ?_, ?_⟩
  · with_unfolding_all rfl
  · with_unfolding_all rfl
  · with_unfolding_all rfl
  · with_unfolding_all rfl
  · with_unfolding_all decide

/-! ## Claim theorems: the statement lexer -/

/-- **C6 counterexample**: the line `001 REEL V C` tokenizes (after the edit
number) to 3 fields — at least 3, so the claim predicts no error — yet the
lexer raises the field-count parse error; moreover the error carries the
line number and the statement text, not the last-seen edit number. -/
theorem malformed_statement_counterexample :
    (splitFields "REEL V C" = ["REEL", "V", "C"]) ∧
    (statements_from_lines ["001 REEL V C"] =
      .error (.wrongFieldCount 3 1 "001 REEL V C")) := by
  constructor
  · decide
  · rfl

/-- **C6 amended**: an edit-numbered, non-comment statement line raises the
(fatal) field-count parse error exactly when the remainder of the line
tokenizes to fewer than 6 or more than 8 whitespace-separated fields, and
the raised error carries the field count, the line number, and the
statement line text. -/
theorem malformed_statement_iff_field_count (ctx : LineContext)
    (line : String) (fields : List String) :
    (fields.length < 6 ∨ fields.length > 8 →
      statementFromFields ctx line fields =
        .error (.wrongFieldCount fields.length ctx.lineNumber line)) ∧
    (6 ≤ fields.length → fields.length ≤ 8 →
      ∀ n ln txt, statementFromFields ctx line fields ≠
        .error (.wrongFieldCount n ln txt)) := by
  constructor
  · intro hcond
    simp only [statementFromFields]
    rw [if_pos hcond]
  · intro h6 h8 n ln txt
    simp only [statementFromFields]
    rw [if_neg (by omega)]
    cases fields with
    | nil => simp at h6
    | cons f0 t =>
      cases t with
      | nil => simp at h6
      | cons f1 rest =>
        by_cases hm : f1 ∈ validEffectTypes
        · simp only [if_pos hm]
          by_cases h4 : rest.length < 4
          · simp [h4]
          · simp only [if_neg h4]
            split <;> simp
        · simp only [if_neg hm]
          cases rest with
          | nil => simp at h6
          | cons editType consuming2 =>
            by_cases h4 : consuming2.length < 4
            · simp [h4]
            · simp only [if_neg h4]
              split <;> simp

theorem malformed_statement_iff_field_count_witness :
    ((["R1", "V", "C", "t1", "t2"] : List String).length < 6 ∨
      (["R1", "V", "C", "t1", "t2"] : List String).length > 8) ∧
    (statementFromFields
        { lineNumber := 7, editNumber := some "004"
        , isEditNumberInferred := false, isRecorded := false
        , isVirtualEdit := false }
        "004 R1 V C t1 t2" ["R1", "V", "C", "t1", "t2"] =
      .error (.wrongFieldCount 5 7 "004 R1 V C t1 t2")) :=
  ⟨Or.inl (by decide),
    (malformed_statement_iff_field_count
      { lineNumber := 7, editNumber := some "004"
      , isEditNumberInferred := false, isRecorded := false
      , isVirtualEdit := false }
      "004 R1 V C t1 t2" ["R1", "V", "C", "t1", "t2"]).1
      (Or.inl (by decide))⟩

/-- **C4 counterexample**: on the line
`001 MY REEL V C 00:00:01:00 00:00:02:00 01:00:00:00 01:00:01:00` the
claim's tail-first reading predicts source identifier `"MY REEL"`, channel
`V`, edit-type `C` and no edit parameter; the lexer instead consumes
head-first and produces source `"MY"`, channel `"REEL"`, edit-type `"V"`
and edit parameter `"C"`. -/
theorem source_identifier_not_tail_first :
    (statements_from_lines
        ["001 MY REEL V C 00:00:01:00 00:00:02:00 01:00:00:00 01:00:01:00"] =
      .ok [.standard
        { ctx := { lineNumber := 1, editNumber := some "001"
                 , isEditNumberInferred := false, isRecorded := false
                 , isVirtualEdit := false }
        , sourceIdentification := "MY"
        , channels := "REEL"
        , editType := "V"
        , editParameter := some "C"
        , sourceEntry := "00:00:01:00"
        , sourceExit := "00:00:02:00"
        , syncEntry := "01:00:00:00"
        , syncExit := "01:00:01:00" }]) ∧
    ("MY" ≠ "MY REEL") ∧ ("REEL" ≠ "V") ∧ ("V" ≠ "C") := by
  refine ⟨by rfl, by decide, by decide, by decide⟩

/-- **C4 amended**: the lexer consumes fields head-first: the first field is
the source identifier (a single token — internal whitespace in a source
identifier shifts every later field), the second is the channel code unless
it is a member of the valid effect-type set, in which case the channel code
is assumed to be mushed onto a fixed-width (8/16/32) reel name and is split
off of it; the following field is the edit-type; the trailing four fields
are source-in, source-out, record-in, record-out; and a leftover field
becomes the edit parameter. -/
theorem head_first_field_consumption (ctx : LineContext) (line : String)
    (f0 f1 f2 f3 f4 f5 f6 f7 : String) :
    (f1 ∉ validEffectTypes →
      statementFromFields ctx line [f0, f1, f2, f3, f4, f5, f6] =
        .ok (.standard
          { ctx := ctx, sourceIdentification := f0, channels := f1
          , editType := f2, editParameter := none
          , sourceEntry := f3, sourceExit := f4
          , syncEntry := f5, syncExit := f6 })) ∧
    (f1 ∉ validEffectTypes →
      statementFromFields ctx line [f0, f1, f2, f3, f4, f5, f6, f7] =
        .ok (.standard
          { ctx := ctx, sourceIdentification := f0, channels := f1
          , editType := f2, editParameter := some f3
          , sourceEntry := f4, sourceExit := f5
          , syncEntry := f6, syncExit := f7 })) ∧
    (f1 ∈ validEffectTypes →
      statementFromFields ctx line [f0, f1, f2, f3, f4, f5] =
        .ok (.standard
          { ctx := ctx
          , sourceIdentification :=
              (f0.data.take (if f0.length > 32 then 32
                else if f0.length > 16 then 16 else 8)).asString
          , channels :=
              (f0.data.drop (if f0.length > 32 then 32
                else if f0.length > 16 then 16 else 8)).asString
          , editType := f1, editParameter := none
          , sourceEntry := f2, sourceExit := f3
          , syncEntry := f4, syncExit := f5 })) := by
  refine ⟨?_, ?_, ?_⟩
  · intro hm
    simp only [statementFromFields]
    rw [if_neg (by simp), if_neg hm]
    rfl
  · intro hm
    simp only [statementFromFields]
    rw [if_neg (by simp), if_neg hm]
    rfl
  · intro hm
    simp only [statementFromFields]
    rw [if_neg (by simp), if_pos hm]
    rfl

theorem head_first_field_consumption_witness :
    (("CLPA" : String) ∉ validEffectTypes) ∧
    (statementFromFields
        { lineNumber := 2, editNumber := some "001"
        , isEditNumberInferred := false, isRecorded := false
        , isVirtualEdit := false }
        "001 CLPA V C s1 s2 r1 r2"
        ["CLPA", "V", "C", "s1", "s2", "r1", "r2"] =
      .ok (.standard
        { ctx := { lineNumber := 2, editNumber := some "001"
                 , isEditNumberInferred := false, isRecorded := false
                 , isVirtualEdit := false }
        , sourceIdentification := "CLPA", channels := "V"
        , editType := "C", editParameter := none
        , sourceEntry := "s1", sourceExit := "s2"
        , syncEntry := "r1", syncExit := "r2" })) :=
  ⟨by decide,
    (head_first_field_consumption
      { lineNumber := 2, editNumber := some "001"
      , isEditNumberInferred := false, isRecorded := false
      , isVirtualEdit := false }
      "001 CLPA V C s1 s2 r1 r2"
      "CLPA" "V" "C" "s1" "s2" "r1" "r2" "").1 (by decide)⟩

/-! ## Claim theorems: the Note Classifier -/

/-- **C9**: an ASC_SOP note whose data contains fewer than 9 signed decimal
numbers raises the invalid-color-decision error, which the event-comment
construction loop catches locally: the note's text is appended to the
unhandled list, the statement to the malformed list, and processing
continues with the remaining comments (the construction is total — the
document is never aborted). With 9 or more numbers, the first 3 / next 3 /
last 3 become slope / offset / power. -/
theorem asc_sop_malformed_recovered (st : EventCommentsState)
    (s : NoteStatement) (post : List NoteStatement)
    (hid : statementIdentifier s.statementText = some "ASC_SOP")
    (hnotyet : (st.handled.lookup "asc_sop").isSome = false) :
    ((ascSopFindall (noteData s.statementText)).length < 9 →
      parsedAscSop (noteData s.statementText) =
        .error (.invalidColorDecision (noteData s.statementText)) ∧
      processComments st (s :: post) =
        processComments
          { st with
            unhandled := st.unhandled ++ [s.statementText],
            malformed := st.malformed ++ [s] } post) ∧
    (9 ≤ (ascSopFindall (noteData s.statementText)).length →
      processComments st (s :: post) =
        processComments
          { st with handled := st.handled ++ [("asc_sop",
              .sop { slope := (ascSopFindall (noteData s.statementText)).take 3
                   , offset :=
                      ((ascSopFindall (noteData s.statementText)).drop 3).take 3
                   , power :=
                      ((ascSopFindall (noteData s.statementText)).drop 6).take 3 })] }
          post) := by
  have hkey : handledNoteStatements.lookup "ASC_SOP" = some "asc_sop" := by rfl
  have hstep : processNoteStatement st s =
      (if (ascSopFindall (noteData s.statementText)).length ≥ 9 then
        .ok { st with handled := st.handled ++ [("asc_sop",
          .sop { slope := (ascSopFindall (noteData s.statementText)).take 3
               , offset :=
                  ((ascSopFindall (noteData s.statementText)).drop 3).take 3
               , power :=
                  ((ascSopFindall (noteData s.statementText)).drop 6).take 3 })] }
      else .error (.invalidColorDecision (noteData s.statementText))) := by
    simp only [processNoteStatement, hid, hkey]
    rw [if_neg (by decide)]
    rw [if_neg (by simp [hnotyet])]
    rw [if_neg (by decide), if_neg (by decide), if_pos trivial]
    simp only [parsedAscSop]
    by_cases hge : (ascSopFindall (noteData s.statementText)).length ≥ 9
    · simp only [if_pos hge]
    · simp only [if_neg hge]
  constructor
  · intro hlt
    have hgeF : ¬ (ascSopFindall (noteData s.statementText)).length ≥ 9 := by
      omega
    constructor
    · simp only [parsedAscSop]
      rw [if_neg hgeF]
    · simp only [processComments, hstep]
      rw [if_neg hgeF]
  · intro hge
    simp only [processComments, hstep]
    rw [if_pos hge]

theorem asc_sop_malformed_recovered_witness :
    (statementIdentifier "ASC_SOP (0.9 1.2 1.0)(0.1 0.2 0.3)" =
      some "ASC_SOP") ∧
    ((([] : List (String × CommentValue)).lookup "asc_sop").isSome = false) ∧
    (((ascSopFindall
        (noteData "ASC_SOP (0.9 1.2 1.0)(0.1 0.2 0.3)")).length < 9 →
      parsedAscSop (noteData "ASC_SOP (0.9 1.2 1.0)(0.1 0.2 0.3)") =
        .error (.invalidColorDecision
          (noteData "ASC_SOP (0.9 1.2 1.0)(0.1 0.2 0.3)")) ∧
      processComments
        { handled := [], unhandled := [], malformed := [], edlRate := 24 }
        ({ ctx := { lineNumber := 5, editNumber := some "001"
                  , isEditNumberInferred := true, isRecorded := false
                  , isVirtualEdit := false }
         , statementText := "ASC_SOP (0.9 1.2 1.0)(0.1 0.2 0.3)"
         , isComment := true } :: []) =
        processComments
          { handled := []
          , unhandled := [] ++ ["ASC_SOP (0.9 1.2 1.0)(0.1 0.2 0.3)"]
          , malformed := [] ++
              [{ ctx := { lineNumber := 5, editNumber := some "001"
                        , isEditNumberInferred := true, isRecorded := false
                        , isVirtualEdit := false }
               , statementText := "ASC_SOP (0.9 1.2 1.0)(0.1 0.2 0.3)"
               , isComment := true }]
          , edlRate := 24 } []) ∧
     (9 ≤ (ascSopFindall
        (noteData "ASC_SOP (0.9 1.2 1.0)(0.1 0.2 0.3)")).length →
      processComments
        { handled := [], unhandled := [], malformed := [], edlRate := 24 }
        ({ ctx := { lineNumber := 5, editNumber := some "001"
                  , isEditNumberInferred := true, isRecorded := false
                  , isVirtualEdit := false }
         , statementText := "ASC_SOP (0.9 1.2 1.0)(0.1 0.2 0.3)"
         , isComment := true } :: []) =
        processComments
          { handled := [] ++ [("asc_sop",
              .sop { slope := (ascSopFindall
                      (noteData "ASC_SOP (0.9 1.2 1.0)(0.1 0.2 0.3)")).take 3
                   , offset := ((ascSopFindall
                      (noteData "ASC_SOP (0.9 1.2 1.0)(0.1 0.2 0.3)")).drop 3).take 3
                   , power := ((ascSopFindall
                      (noteData "ASC_SOP (0.9 1.2 1.0)(0.1 0.2 0.3)")).drop 6).take 3 })]
          , unhandled := [], malformed := [], edlRate := 24 } [])) :=
  ⟨by decide, by decide,
    asc_sop_malformed_recovered
      { handled := [], unhandled := [], malformed := [], edlRate := 24 }
      { ctx := { lineNumber := 5, editNumber := some "001"
               , isEditNumberInferred := true, isRecorded := false
               , isVirtualEdit := false }
      , statementText := "ASC_SOP (0.9 1.2 1.0)(0.1 0.2 0.3)"
      , isComment := true }
      [] (by decide) (by decide)⟩

/-! ## Claim theorems: the Reconstruction Driver (TITLE handling) -/

/-- **C7 counterexample**: two identical TITLE directives yield ONE
timeline, not two — a repeated TITLE with identical text does not start a
new timeline. -/
theorem repeated_identical_title_counterexample :
    (statements_from_lines ["TITLE: A", "TITLE: A"] =
      .ok [ .note { ctx := { lineNumber := 1, editNumber := none
                           , isEditNumberInferred := true, isRecorded := false
                           , isVirtualEdit := false }
                  , statementText := "TITLE: A", isComment := false }
          , .note { ctx := { lineNumber := 2, editNumber := none
                           , isEditNumberInferred := true, isRecorded := false
                           , isVirtualEdit := false }
                  , statementText := "TITLE: A", isComment := false } ]) ∧
    ((load_from_statements
        [ .note { ctx := { lineNumber := 1, editNumber := none
                         , isEditNumberInferred := true, isRecorded := false
                         , isVirtualEdit := false }
                , statementText := "TITLE: A", isComment := false }
        , .note { ctx := { lineNumber := 2, editNumber := none
                         , isEditNumberInferred := true, isRecorded := false
                         , isVirtualEdit := false }
                , statementText := "TITLE: A", isComment := false } ]).timelines =
      [{ name := "A", events := [] }]) ∧
    ((1 : Nat) ≠ 2) := by
  refine ⟨by rfl, by rfl, by decide⟩

/-- **C7 amended**: a non-comment TITLE directive is absorbed without
becoming an event member (the accumulated event statements and current
event number pass through unchanged); it starts a new Timeline — retaining
the old one in the output list — exactly when the current timeline already
has a non-empty name different from the directive's text; in every case
the (possibly new) current timeline's name is set to the directive's text.
A repeated TITLE with identical text does not start a new timeline. -/
theorem title_directive_handling (st : ReaderState)
    (eventStatements : List Statement) (currentEvent : Option String)
    (rest : List Statement) (n : NoteStatement)
    (hnc : n.isComment = false)
    (hid : statementIdentifier n.statementText = some "TITLE") :
    loadLoop st eventStatements currentEvent (.note n :: rest) =
      loadLoop
        (let d := noteData n.statementText
         let st' :=
           if st.current.name ≠ "" ∧ st.current.name ≠ d then newTimeline st
           else st
         { st' with current := { st'.current with name := d } })
        eventStatements currentEvent rest := by
  simp only [loadLoop, hid, hnc]
  rw [if_neg (by simp), if_pos (by simp)]

theorem title_directive_handling_witness :
    (({ ctx := { lineNumber := 3, editNumber := none
               , isEditNumberInferred := true, isRecorded := false
               , isVirtualEdit := false }
      , statementText := "TITLE: B", isComment := false } :
        NoteStatement).isComment = false) ∧
    (statementIdentifier "TITLE: B" = some "TITLE") ∧
    (loadLoop { finished := [], current := { name := "A", events := [] } } []
        none
        [.note { ctx := { lineNumber := 3, editNumber := none
                        , isEditNumberInferred := true, isRecorded := false
                        , isVirtualEdit := false }
               , statementText := "TITLE: B", isComment := false }] =
      loadLoop
        (let d := noteData "TITLE: B"
         let st' :=
           if ({ finished := [], current := { name := "A", events := [] } } :
                ReaderState).current.name ≠ "" ∧
              ({ finished := [], current := { name := "A", events := [] } } :
                ReaderState).current.name ≠ d then
             newTimeline { finished := [], current := { name := "A", events := [] } }
           else { finished := [], current := { name := "A", events := [] } }
         { st' with current := { st'.current with name := d } })
        [] none []) :=
  ⟨by decide, by decide,
    title_directive_handling
      { finished := [], current := { name := "A", events := [] } } [] none []
      { ctx := { lineNumber := 3, editNumber := none
               , isEditNumberInferred := true, isRecorded := false
               , isVirtualEdit := false }
      , statementText := "TITLE: B", isComment := false }
      (by decide) (by decide)⟩

/-! ## Claim theorems: the Placement Engine -/

/-- **C2** (code bug): the overlap check in `tracks_for_channel` compares
an offset-relative start against the track duration but queries
`children_in_range` with the ABSOLUTE record range, while tracks live in
coordinates relative to the first event's record time. Consequently, for
a document whose records start at 01:00:00:00, a second audio event whose
record range overlaps the first is appended without any error — no
`TrackOverlap` is raised and a timeline is returned — whereas the same two
events with records starting at zero do raise the error carrying the
incoming event's number(s). -/
theorem track_overlap_not_raised_for_offset_records :
    -- the two record ranges overlap (seconds 3600–3610 and 3605–3615)
    (secondsOverlap
      (⟨⟨86400, 24⟩, ⟨240, 24⟩⟩ : TimeRange).start_time.seconds
      (TimeRange.endTimeExclusive ⟨⟨86400, 24⟩, ⟨240, 24⟩⟩).seconds
      (⟨⟨86520, 24⟩, ⟨240, 24⟩⟩ : TimeRange).start_time.seconds
      (TimeRange.endTimeExclusive ⟨⟨86520, 24⟩, ⟨240, 24⟩⟩).seconds = true) ∧
    -- yet both clips land on the same (non-video) track with no error
    (placeTwice ⟨⟨86400, 24⟩, ⟨240, 24⟩⟩ ⟨⟨86520, 24⟩, ⟨240, 24⟩⟩ =
      .ok { tracks := [ { name := "A1", kind := .audio
                        , items := [ .clip cexPlacedClip1
                                   , .clip cexPlacedClip2 ] } ]
          , videoTracks := []
          , currentTimelineStartOffset := some ⟨86400, 24⟩ }) ∧
    -- the identical overlap starting at record time zero raises the error
    (placeTwice ⟨⟨0, 24⟩, ⟨240, 24⟩⟩ ⟨⟨120, 24⟩, ⟨240, 24⟩⟩ =
      .error (.trackOverlap ["002"])) := by
  refine ⟨?_, ?_, ?_⟩
  · with_unfolding_all decide
  · with_unfolding_all rfl
  · with_unfolding_all rfl

end Cmx3600
